import Mathlib

/-!
Verification of the pyment docstring-conversion core (`src/pyment`).

This file gives a shallow embedding, in Lean 4, of the parts of the
repository that the checked claims are about:

* the signature tokenizer `DocString._extract_signature_elements` and the
  surrounding `DocString.parse_definition` (src/pyment/docstring.py),
* the parameter-merge generator `DocString.__extract_params`,
* the style auto-detection `DocsTools.autodetect_style`
  (src/pyment/docs_tools.py),
* the tag-style extraction helpers (`DocsTools.get_key_index`,
  `get_elem_index`, `get_raise_indexes`, `get_raise_description_indexes`,
  `DocString._extract_tagstyle_docs_raises`),
* the per-dialect parameter renderers
  (src/pyment/comment_builder/strategy.py),
* the comment-builder construction `DocString._define_builder` together
  with the builder constructors (src/pyment/comment_builder/*.py),
* the tag-style element extractor `DocsTools._extra_tagstyle_elements`
  with `DocsTools.__parse_param`.

Python strings are modelled as `List Char` with ASCII case/word-character
semantics; `str.splitlines` is modelled as splitting on `'\n'` (the inputs
of interest contain no other line separators).  Python `None`-or-string
values are modelled as `Option (List Char)`; Python truthiness of such a
value is `pyTruthy`.  Fallible Python code (KeyError, TypeError, `raise`)
is modelled with `Except PyErr`.  Negative indices and `-1` sentinels of
the index-scanning helpers are modelled with `Int` and Python slice
semantics (`pySlice`).
-/

/-- The embedding's model of a Python `str`. -/
abbrev PyStr := List Char

/-- Shorthand turning a Lean string literal into its `PyStr` model. -/
def pyS (s : String) : PyStr := s.data

/-- Python's notion of whitespace for `str.strip` (ASCII part). -/
def pyIsSpace (c : Char) : Bool :=
  c = ' ' || c = '\t' || c = '\n' || c = '\x0d' || c = '\x0b' || c = '\x0c'

/-- `str.lstrip()`. -/
def pyLStrip (s : PyStr) : PyStr := s.dropWhile pyIsSpace

/-- `str.rstrip()`. -/
def pyRStrip (s : PyStr) : PyStr := (s.reverse.dropWhile pyIsSpace).reverse

/-- `str.strip()`. -/
def pyStrip (s : PyStr) : PyStr := pyRStrip (pyLStrip s)

/-- `str.rstrip(chars)` for an explicit set of characters. -/
def pyRStripChars (cs : List Char) (s : PyStr) : PyStr :=
  (s.reverse.dropWhile (fun c => cs.contains c)).reverse

/-- ASCII `str.lower()`. -/
def pyLower (s : PyStr) : PyStr := s.map Char.toLower

/-- `str.startswith` / `str.endswith`. -/
def pyStartsWith (s pre : PyStr) : Bool := pre.isPrefixOf s

def pyEndsWith (s suf : PyStr) : Bool := suf.isSuffixOf s

/-- Auxiliary for `pyFind`: first index at or after the accumulator where
`pat` occurs. -/
def pyFindAux (pat : PyStr) : PyStr → Nat → Option Nat
  | s, i =>
    if pat.isPrefixOf s then some i
    else
      match s with
      | [] => none
      | _ :: t => pyFindAux pat t (i + 1)

/-- `str.find(pat)` as an `Option` (the `-1` sentinel is `none`). -/
def pyFind (s pat : PyStr) : Option Nat := pyFindAux pat s 0

/-- `pat in s` (Python substring containment). -/
def pyContainsSub (s pat : PyStr) : Bool := (pyFind s pat).isSome

/-- `str.rfind(pat)` as an `Option`: index of the last occurrence. -/
def pyRFindAux (pat : PyStr) : PyStr → Nat → Option Nat → Option Nat
  | s, i, best =>
    let best' := if pat.isPrefixOf s then some i else best
    match s with
    | [] => best'
    | _ :: t => pyRFindAux pat t (i + 1) best'

def pyRFind (s pat : PyStr) : Option Nat := pyRFindAux pat s 0 none

theorem pyFindAux_bound (pat : PyStr) :
    ∀ (t : PyStr) (j k : Nat), pyFindAux pat t j = some k →
      j ≤ k ∧ (k - j) + pat.length ≤ t.length := by
  intro t
  induction t with
  | nil =>
    intro j k hjk
    unfold pyFindAux at hjk
    by_cases hp : pat.isPrefixOf ([] : PyStr)
    · have hpat : pat = [] := by
        cases pat with
        | nil => rfl
        | cons a l => simp [List.isPrefixOf] at hp
      simp [hp] at hjk
      subst hjk
      simp [hpat]
    · simp [hp] at hjk
  | cons a t ih =>
    intro j k hjk
    unfold pyFindAux at hjk
    by_cases hp : pat.isPrefixOf (a :: t)
    · simp [hp] at hjk
      subst hjk
      have := List.IsPrefix.length_le (List.isPrefixOf_iff_prefix.mp hp)
      simp at this ⊢
      omega
    · simp [hp] at hjk
      have := ih (j + 1) k hjk
      simp
      omega

theorem pyFind_bound {s pat : PyStr} {i : Nat} (h : pyFind s pat = some i) :
    i + pat.length ≤ s.length := by
  have := pyFindAux_bound pat s 0 i h
  omega

/-- Fuel recursion for `pyCount`: the scan drops at least one character
per found occurrence, so fuel `s.length` never runs out for a nonempty
pattern. -/
def pyCountFuel (pat : PyStr) : Nat → PyStr → Nat
  | 0, _ => 0
  | fuel + 1, s =>
    match pyFind s pat with
    | none => 0
    | some i => 1 + pyCountFuel pat fuel (s.drop (i + pat.length))

/-- `str.count(pat)`: number of non-overlapping occurrences, scanning left
to right (`s.count('')` is `len(s) + 1` in Python, matching the guard). -/
def pyCount (s pat : PyStr) : Nat :=
  if pat = [] then s.length + 1 else pyCountFuel pat (s.length + 1) s

/-- `sep.join(parts)`. -/
def pyJoin (sep : PyStr) : List PyStr → PyStr
  | [] => []
  | [x] => x
  | x :: y :: t => x ++ sep ++ pyJoin sep (y :: t)

/-- `str.splitlines()` restricted to `'\n'` separators (Python drops a
final empty chunk produced by a trailing newline). -/
def pySplitlinesAux : PyStr → PyStr → List PyStr
  | [], acc => if acc = [] then [] else [acc.reverse]
  | c :: t, acc =>
    if c = '\n' then acc.reverse :: pySplitlinesAux t []
    else pySplitlinesAux t (c :: acc)

def pySplitlines (s : PyStr) : List PyStr := pySplitlinesAux s []

/-- Fuel recursion for `pyReplace`: every step consumes at least one
character of `s`, so fuel `s.length` suffices. -/
def pyReplaceFuel (old new : PyStr) : Nat → PyStr → PyStr
  | 0, s => s
  | fuel + 1, s =>
    if old.isPrefixOf s ∧ old ≠ [] then
      new ++ pyReplaceFuel old new fuel (s.drop old.length)
    else
      match s with
      | [] => []
      | c :: t => c :: pyReplaceFuel old new fuel t

/-- `str.replace(old, new)` (all occurrences, left to right,
non-overlapping); for an empty `old` Python would interleave, but the
sources only use nonempty patterns. -/
def pyReplace (s old new : PyStr) : PyStr := pyReplaceFuel old new s.length s

/-- `str.replace(old, new, 1)`: only the first occurrence. -/
def pyReplace1 : PyStr → PyStr → PyStr → PyStr
  | s, old, new =>
    if old.isPrefixOf s ∧ old ≠ [] then
      new ++ s.drop old.length
    else
      match s with
      | [] => []
      | c :: t => c :: pyReplace1 t old new

/-- Normalize a Python slice bound to an absolute position. -/
def pySliceNorm (len : Nat) (i : Int) : Nat :=
  if i < 0 then (len : Int).toNat - (-i).toNat |>.min len
  else i.toNat.min len

/-- `s[a:b]` with full Python semantics for possibly-negative bounds. -/
def pySlice (s : PyStr) (a b : Int) : PyStr :=
  let lo := pySliceNorm s.length a
  let hi := pySliceNorm s.length b
  (s.take hi).drop lo

/-- `s[a:]`. -/
def pyDropInt (s : PyStr) (a : Int) : PyStr := pySlice s a s.length

/-- `s[:b]`. -/
def pyTakeInt (s : PyStr) (b : Int) : PyStr := pySlice s 0 b

/-- Python `\w` (ASCII part): letter, digit or underscore. -/
def pyIsWord (c : Char) : Bool := c.isAlpha || c.isDigit || c = '_'

/-- Errors raised by the modelled Python code. -/
inductive PyErr where
  | typeError
  | keyError
  | exceptionErr
deriving Repr, DecidableEq

/-- Python truthiness of a `None`-or-`str` value: `None` and `''` are
falsy. -/
def pyTruthy : Option PyStr → Bool
  | none => false
  | some s => !s.isEmpty

/-! ## Signature splitter (src/pyment/docstring.py)

`ParamsConfig` is the dataclass of src/pyment/domain.py.  The character
state machine is `DocString._extract_signature_elements`
(docstring.py lines 235-294); `DocString._remove_signature_comment` is
lines 214-233; the `self`/`cls`/empty filtering is
`DocString.parse_definition` lines 199-211 (the source collects the
matching entries in `remove_keys` and deletes them with `list.remove`;
since dataclass equality is structural and the predicate depends only on
the value, that is exactly a filter). -/

structure ParamsConfig where
  param : PyStr := []
  type : PyStr := []
  default : PyStr := []
deriving Repr, DecidableEq

/-- The `end_inside` table `{'(': ')', '{': '}', '[': ']', "'": "'",
'"': '"'}`; `none` for characters that are not keys. -/
def endInside (c : Char) : Option Char :=
  if c = '(' then some ')'
  else if c = Char.ofNat 123 then some (Char.ofNat 125)
  else if c = '[' then some ']'
  else if c = '\'' then some '\''
  else if c = '"' then some '"'
  else none

/-- The `reading` variable of `_extract_signature_elements`. -/
inductive Reading where
  | param
  | afterParam
  | type
  | afterType
  | default
  | afterDefault
deriving Repr, DecidableEq

/-- State of the character loop of `_extract_signature_elements`: the
source keeps `elems` (with the current entry aliased as `current_param`);
we keep the finished entries and the current entry separately. -/
structure SigState where
  done : List ParamsConfig
  cur : ParamsConfig
  reading : Reading
  inside : Option Char
deriving Repr, DecidableEq

def sigInitState : SigState := ⟨[], {}, Reading.param, none⟩

/-- First branch of the loop body: a character inside a nested region (or
an opening character) is appended to `type`/`default`; in any other
reading state the source raises `Exception("unexpected nested element
...")`. -/
def sigAppendNested (st : SigState) (c : Char) : Except PyErr SigState :=
  match st.reading with
  | Reading.type => Except.ok { st with cur := { st.cur with type := st.cur.type ++ [c] } }
  | Reading.default => Except.ok { st with cur := { st.cur with default := st.cur.default ++ [c] } }
  | _ => Except.error PyErr.exceptionErr

/-- The state-machine part of the loop body (everything after the nested
branch and the `inside`-clearing check). -/
def sigMachine (st : SigState) (c : Char) : SigState :=
  let st1 :=
    match st.reading with
    | Reading.param =>
      if !([':', ' ', ',', '='].contains c) then
        { st with cur := { st.cur with param := st.cur.param ++ [c] } }
      else
        if (c = ' ' && !st.cur.param.isEmpty) || c ≠ ' ' then
          { st with reading := Reading.afterParam }
        else st
    | Reading.type =>
      if !([',', '='].contains c) then
        { st with cur := { st.cur with type := st.cur.type ++ [c] } }
      else { st with reading := Reading.afterType }
    | Reading.default =>
      if c ≠ ',' then
        { st with cur := { st.cur with default := st.cur.default ++ [c] } }
      else { st with reading := Reading.afterDefault }
    | _ => st
  if st1.reading = Reading.afterParam ∨ st1.reading = Reading.afterType ∨
      st1.reading = Reading.afterDefault then
    if st1.reading = Reading.afterParam ∧ c = ':' then
      { st1 with reading := Reading.type }
    else if c = ',' then
      { st1 with done := st1.done ++ [st1.cur], cur := {}, reading := Reading.param }
    else if c = '=' then
      { st1 with reading := Reading.default }
    else st1
  else st1

/-- One iteration of the character loop of
`_extract_signature_elements`.  `st.inside`, when set, always holds a key
of the `end_inside` table, so the `getD` default is never used. -/
def sigStep (st : SigState) (c : Char) : Except PyErr SigState :=
  match st.inside with
  | some b =>
    if c ≠ (endInside b).getD b then
      sigAppendNested st c
    else
      Except.ok (sigMachine { st with inside := none } c)
  | none =>
    if (endInside c).isSome then
      sigAppendNested { st with inside := some c } c
    else
      Except.ok (sigMachine st c)

def sigRun (st : SigState) (cs : PyStr) : Except PyErr SigState :=
  cs.foldlM sigStep st

/-- Index helper: Python `find`/`rfind` return `-1` when absent. -/
def toIntIdx : Option Nat → Int
  | none => -1
  | some i => (i : Int)

/-- `str.strip()` of every field of a `ParamsConfig` (the final loop of
`_extract_signature_elements`). -/
def stripParamsConfig (e : ParamsConfig) : ParamsConfig :=
  ⟨pyStrip e.param, pyStrip e.type, pyStrip e.default⟩

/-- `DocString._extract_signature_elements` (docstring.py 235-294). -/
def extractSignatureElements (txt : PyStr) : Except PyErr (List ParamsConfig × PyStr) := do
  let start : Int := toIntIdx (pyFind txt [Char.ofNat 40]) + 1
  let endStart : Int := toIntIdx (pyRFind txt [Char.ofNat 41])
  let endEnd : Int := toIntIdx (pyRFind txt [':'])
  let returnType :=
    pyReplace (pyReplace (pyReplace (pySlice txt (endStart + 1) endEnd) (pyS " ") [])
      (pyS "\t") []) (pyS "->") []
  let st ← sigRun sigInitState (pySlice txt start endStart)
  let elems := st.done ++ [st.cur]
  pure (elems.map stripParamsConfig, pyStrip returnType)

/-- `DocString._remove_signature_comment` (docstring.py 214-233). -/
def removeSignatureComment (txt : PyStr) : PyStr :=
  go txt none
where
  go : PyStr → Option Char → PyStr
    | [], _ => []
    | c :: t, inside =>
      match inside with
      | some b =>
        if c ≠ (endInside b).getD b then c :: go t inside
        else c :: go t none
      | none =>
        if (endInside c).isSome then c :: go t (some c)
        else if c = '#' then []
        else c :: go t none

/-- The `self`/`cls`/empty filter of `parse_definition`
(docstring.py 200-208). -/
def keepSignatureParam (p : ParamsConfig) : Bool :=
  !(p.param = pyS "self" || p.param = pyS "cls") && !p.param.isEmpty

/-- `DocString.parse_definition` (docstring.py 168-212), restricted to the
data it stores: the filtered parameter list and the return type (the
element's `rtype` starts as `''` and is assigned only when the extracted
return type is truthy, which leaves it equal to the extracted string in
both cases).  Elements that are not functions keep their empty parameter
list. -/
def parseDefinition (raw : PyStr) : Except PyErr (List ParamsConfig × PyStr) := do
  let l := pyStrip raw
  if pyStartsWith l (pyS "async def ") || pyStartsWith l (pyS "def ") ||
      pyStartsWith l (pyS "class ") then
    if pyStartsWith l (pyS "def") then
      let l2 := pyReplace l (pyS "def ") []
      let (parameters, returnType) ← extractSignatureElements (removeSignatureComment l2)
      pure (parameters.filter keepSignatureParam, returnType)
    else if pyStartsWith l (pyS "async") then
      let l2 := pyReplace l (pyS "async def ") []
      let (parameters, returnType) ← extractSignatureElements (removeSignatureComment l2)
      pure (parameters.filter keepSignatureParam, returnType)
    else
      pure ([], [])
  else
    pure ([], [])

/-- The parameter list stored on the element by `parse_definition`. -/
def parseDefinitionParams (raw : PyStr) : Except PyErr (List ParamsConfig) :=
  (parseDefinition raw).map (·.1)

/-! ## Parameter merge (`DocString.__extract_params`, docstring.py 606-631)

Python dict semantics (insertion order, later assignment overwrites in
place) are modelled on association lists by `pyDictInsert`/`pyDictOf`. -/

def pyDictInsert {α : Type} (d : List (PyStr × α)) (k : PyStr) (v : α) :
    List (PyStr × α) :=
  if d.any (fun kv => kv.1 = k) then
    d.map (fun kv => if kv.1 = k then (k, v) else kv)
  else d ++ [(k, v)]

def pyDictOf {α : Type} (l : List (PyStr × α)) : List (PyStr × α) :=
  l.foldl (fun d kv => pyDictInsert d kv.1 kv.2) []

def pyLookup {α : Type} (d : List (PyStr × α)) (k : PyStr) : Option α :=
  (d.find? (fun kv => kv.1 = k)).map (·.2)

/-- `normalize_default_value` (src/pyment/utils.py 75-110), on strings
(the `None`/non-`str` guard is the identity there, and so is the empty
string case). -/
def normalizeDefaultValue (v : PyStr) : PyStr :=
  if v.isEmpty then v
  else if pyStartsWith v (pyS "\"\"\"") && pyEndsWith v (pyS "\"\"\"") then
    pyS "'" ++ pySlice v 3 (-3) ++ pyS "'"
  else if pyStartsWith v (pyS "'''") && pyEndsWith v (pyS "'''") then
    pyS "'" ++ pySlice v 3 (-3) ++ pyS "'"
  else
    pyReplace (pyReplace v (pyS "\"\"\"") (pyS "'")) (pyS "'''") (pyS "'")

/-- The `_options` dict of `DocString.__init__` (docstring.py 103-107);
nothing in the sources ever modifies it. -/
def optionsHintRtypePriority : Bool := true

def optionsHintTypePriority : Bool := true

def optionsRstTypeInParamPriority : Bool := true

/-- A docstring-side parameter record: the values of the `docs_params`
dict built by `__extract_params` from the `(name, description, type)`
tuples of `self.docs['in']['params']`. -/
structure DsParamInfo where
  desc : PyStr
  ptype : Option PyStr
deriving Repr, DecidableEq

/-- One merged output parameter, as yielded by `__extract_params`:
`(name, out_description, out_type, out_default)`. -/
structure OutParam where
  name : PyStr
  desc : PyStr
  ptype : Option PyStr
  dflt : Option PyStr
deriving Repr, DecidableEq

/-- The body of the `for name in sig_params` loop of `__extract_params`
(docstring.py 618-631). -/
def extractParamEntry (name : PyStr) (sigType sigDefault : PyStr)
    (docsEntry : Option DsParamInfo) : OutParam :=
  let outType : Option PyStr := if !sigType.isEmpty then some sigType else none
  let outDefault : Option PyStr := if !sigDefault.isEmpty then some sigDefault else none
  let outDefault := if pyTruthy outDefault then outDefault.map normalizeDefaultValue else outDefault
  match docsEntry with
  | some info =>
    let outType :=
      if !pyTruthy outType || (!optionsHintTypePriority && pyTruthy info.ptype) then
        info.ptype
      else outType
    ⟨name, info.desc, outType, outDefault⟩
  | none => ⟨name, [], outType, outDefault⟩

/-- `DocString.__extract_params` (docstring.py 606-631): builds the two
dicts keyed by parameter name and yields one tuple per signature
parameter, looking the name up among the documented parameters.  The
documented parameters are the extracted `(name, description, type)`
tuples. -/
def extractParams (sigParams : List ParamsConfig)
    (docsParams : List (PyStr × PyStr × Option PyStr)) : List OutParam :=
  let sigd := pyDictOf (sigParams.map fun e => (e.param, (e.type, e.default)))
  let docsd := pyDictOf (docsParams.map fun x => (x.1, DsParamInfo.mk x.2.1 x.2.2))
  sigd.map fun kv => extractParamEntry kv.1 kv.2.1 kv.2.2 (pyLookup docsd kv.1)

/-! ## Dialect tables and style auto-detection
(src/pyment/docs_tools.py, src/pyment/utils.py)

`DocsTools._set_available_styles` (docs_tools.py 538-575) builds the
`opt` table for the keys `param, type, returns, return, rtype, raise`
over the tag styles `javadoc ('@', ':')`, `reST (':', ':')`,
`cstyle ('\\', ' ')`, then overrides `opt['return']['reST']['name']`
to `':returns'` and `opt['raise']['reST']['name']` to `':raises'`,
and sets the `groups` keyword lists. -/

def tagstyles : List PyStr := [pyS "javadoc", pyS "reST", pyS "cstyle"]

def optKeys : List PyStr :=
  [pyS "param", pyS "type", pyS "returns", pyS "return", pyS "rtype", pyS "raise"]

/-- `self.opt[key][style]['name']`; `none` models the `KeyError` of a
lookup with an unknown key or style. -/
def optName (key style : PyStr) : Option PyStr :=
  if !optKeys.contains key then none
  else if style = pyS "javadoc" then some ('@' :: key)
  else if style = pyS "reST" then
    if key = pyS "return" then some (pyS ":returns")
    else if key = pyS "raise" then some (pyS ":raises")
    else some (':' :: key)
  else if style = pyS "cstyle" then some ('\\' :: key)
  else none

/-- `self.opt[key][style]['sep']`. -/
def optSep (key style : PyStr) : Option PyStr :=
  if !optKeys.contains key then none
  else if style = pyS "javadoc" || style = pyS "reST" then some (pyS ":")
  else if style = pyS "cstyle" then some (pyS " ")
  else none

def groupsKeys : List PyStr := [pyS "param", pyS "return", pyS "raise"]

def groupsVals (key : PyStr) : List PyStr :=
  if key = pyS "param" then [pyS "params", pyS "args", pyS "parameters", pyS "arguments"]
  else if key = pyS "return" then [pyS "returns", pyS "return"]
  else if key = pyS "raise" then [pyS "raises", pyS "exceptions", pyS "raise", pyS "exception"]
  else []

/-- The values of `NumpydocTools.opt` in iteration (insertion) order
(docs_tools.py 243-254). -/
def numpydocOptVals : List PyStr :=
  [pyS "see also", pyS "attributes", pyS "examples", pyS "methods", pyS "notes",
   pyS "other parameters", pyS "parameters", pyS "raises", pyS "references", pyS "returns"]

/-- `NumpydocTools.keywords` (docs_tools.py 262-267). -/
def numpydocKeywords : List PyStr :=
  [pyS ":math:", pyS ".. math::", pyS "see also", pyS ".. image::"]

/-- The values of `GoogledocTools.opt` in iteration order
(docs_tools.py 405-411). -/
def googledocOptVals : List PyStr :=
  [pyS "attributes", pyS "args", pyS "raises", pyS "returns", pyS "yields"]

/-- `isin_alone` (utils.py 16-28). -/
def isinAlone (elems : List PyStr) (line : PyStr) : Bool :=
  elems.any (fun e => pyLower (pyStrip line) = pyLower e)

/-- `isin_start` (utils.py 31-44) applied to a single (non-list) element,
which the source wraps into a one-element list. -/
def isinStartOne (e : PyStr) (line : PyStr) : Bool :=
  pyStartsWith (pyLower (pyLStrip line)) e

/-- `isin_start` applied to a list. -/
def isinStartList (elems : List PyStr) (line : PyStr) : Bool :=
  elems.any (fun e => isinStartOne e line)

/-- `isin` (utils.py 47-59). -/
def isinSub (elems : List PyStr) (line : PyStr) : Bool :=
  elems.any (fun e => pyContainsSub (pyLower line) e)

/-- `found_keys[style]` in `autodetect_style`: the sum over the six `opt`
keys of `data.count(opt[key][style]['name'])`. -/
def styleKeyCount (data style : PyStr) : Nat :=
  optKeys.foldl (fun acc key => acc + pyCount data ((optName key style).getD [])) 0

/-- Python `max(found_keys, key=found_keys.get)`: the first key with
maximal count, in dict insertion order. -/
def maxByFirst (x : PyStr × Nat) (rest : List (PyStr × Nat)) : PyStr × Nat :=
  rest.foldl (fun best y => if y.2 > best.2 then y else best) x

/-- The per-line counters of the group/section phase of
`autodetect_style` (docs_tools.py 598-613). -/
structure DetectCounts where
  groups : Nat
  google : Nat
  numpy : Nat
  sep : Nat
deriving Repr, DecidableEq

def autodetectCountsStep (acc : DetectCounts) (line : PyStr) : DetectCounts :=
  let acc := { acc with
    groups := acc.groups + groupsKeys.countP (fun k => isinStartList (groupsVals k) line) }
  let acc := { acc with
    google := acc.google + googledocOptVals.countP (fun v => isinStartOne v line) }
  let acc := { acc with
    numpy := acc.numpy + numpydocOptVals.countP (fun v => isinStartOne v line) }
  if !(pyStrip line).isEmpty &&
      isinAlone [List.replicate (pyStrip line).length '-'] line then
    { acc with sep := acc.sep + 1 }
  else if isinSub numpydocKeywords line then
    { acc with numpy := acc.numpy + 1 }
  else acc

def autodetectCounts (data : PyStr) : DetectCounts :=
  (pySplitlines (pyStrip data)).foldl autodetectCountsStep ⟨0, 0, 0, 0⟩

/-- `DocsTools.autodetect_style` (docs_tools.py 577-623), the detection
itself (the final assignment to `self.style['in']` is
`autodetectStyleSt`). -/
def autodetectStyle (data : PyStr) : PyStr :=
  let fkey := maxByFirst (pyS "javadoc", styleKeyCount data (pyS "javadoc"))
    [(pyS "reST", styleKeyCount data (pyS "reST")),
     (pyS "cstyle", styleKeyCount data (pyS "cstyle"))]
  let detected := if fkey.2 ≠ 0 then fkey.1 else pyS "unknown"
  if detected = pyS "unknown" then
    let cs := autodetectCounts data
    if cs.numpy ≠ 0 && cs.sep ≠ 0 then pyS "numpydoc"
    else if cs.google ≥ cs.groups then pyS "google"
    else if cs.groups ≠ 0 then pyS "groups"
    else pyS "unknown"
  else detected

/-- The mutable state a `DocsTools` instance carries beyond its constant
tables: the `style` dict and the known-parameters list.  A
`CommentBuilderConfig` (src/pyment/configs.py) holds such an instance in
its `dst` field, so this is part of the resolved configuration object. -/
structure DocsToolsState where
  styleIn : PyStr
  styleOut : PyStr
  params : List ParamsConfig
deriving Repr, DecidableEq

/-- `DocsTools.autodetect_style` as a state transformer: it computes the
detected style, assigns it to `self.style['in']` and returns it. -/
def autodetectStyleSt (st : DocsToolsState) (data : PyStr) :
    PyStr × DocsToolsState :=
  let detected := autodetectStyle data
  (detected, { st with styleIn := detected })

/-- `DocsTools.set_input_style` (docs_tools.py 625-632), also reached via
`DocString.set_input_style` (docstring.py 142-150). -/
def setInputStyleSt (st : DocsToolsState) (style : PyStr) : DocsToolsState :=
  { st with styleIn := style }

/-- `DocsTools.set_known_parameters` (docs_tools.py 668-675), called by
`DocString.parse_docs`. -/
def setKnownParametersSt (st : DocsToolsState) (ps : List ParamsConfig) :
    DocsToolsState :=
  { st with params := ps }

/-! ## Format strategies (src/pyment/comment_builder/strategy.py)

`CommentBuilderConfigM` models the fields of
`pyment.configs.CommentBuilderConfig` that the strategies and builders
read; `CaseConfigM` models the per-element `CaseConfig`. -/

structure CommentBuilderConfigM where
  dst : DocsToolsState
  spaces : PyStr
  numOfSpaces : Nat
  skipEmpty : Bool
  showDefaultValue : Bool
  indentEmptyLines : Bool
  typeTags : Bool
deriving Repr, DecidableEq

structure CaseConfigM where
  spaces : PyStr
deriving Repr, DecidableEq

/-- `DocsTools.get_key(key, 'out')` (docs_tools.py 642-652). -/
def getKeyOut (st : DocsToolsState) (key : PyStr) : Option PyStr :=
  optName key st.styleOut

/-- `DocsTools.get_sep(key='param', target='out')`
(docs_tools.py 654-666). -/
def getSepOut (st : DocsToolsState) : Option PyStr :=
  if st.styleOut = pyS "numpydoc" || st.styleOut = pyS "google" then some []
  else optSep (pyS "param") st.styleOut

/-- `sep = sep + ' ' if sep != ' ' else sep` (strategy.py 412-413 and
builder.py 286-287). -/
def padSep (sep : PyStr) : PyStr :=
  if sep ≠ pyS " " then sep ++ pyS " " else sep

/-- The `with_space` closure of `DefaultStrategy.format_params_section`
(strategy.py 415-425): later lines keep their own text, prefixed with the
element's spaces. -/
def withSpaceDefault (spaces : PyStr) (indentEmptyLines : Bool) (s : PyStr) : PyStr :=
  match pySplitlines s with
  | [] => []
  | l0 :: rest =>
    pyJoin (pyS "\n") (l0 :: rest.map fun l =>
      if (pyStrip l).isEmpty && !indentEmptyLines then [] else spaces ++ l)

/-- The `with_space` closures of the Google/Numpydoc strategies
(strategy.py 111-122, 257-268): later lines are left-stripped and
re-prefixed with `pre`. -/
def withSpaceStripped (pre : PyStr) (indentEmptyLines : Bool) (s : PyStr) : PyStr :=
  match pySplitlines s with
  | [] => []
  | l0 :: rest =>
    pyJoin (pyS "\n") (l0 :: rest.map fun l =>
      let stripped := pyLStrip l
      if stripped.isEmpty && !indentEmptyLines then [] else pre ++ stripped)

/-- The `(Default value = ...)` suffix guard shared by the three
renderers (strategy.py 431-435, 280-284, 132-136): appended only when the
feature is on, the description does not already contain `default`
(case-insensitively), and the parameter has a default. -/
def defaultValueSuffix (showDefaultValue : Bool) (p : OutParam) : PyStr :=
  if showDefaultValue && !pyContainsSub (pyLower p.desc) (pyS "default") &&
      p.dflt.isSome then
    let descStripped := if !p.desc.isEmpty then pyStrip p.desc else []
    let spaceBefore := if !descStripped.isEmpty then pyS " " else []
    spaceBefore ++ pyS "(Default value = " ++ p.dflt.getD [] ++ pyS ")"
  else []

/-- One parameter's contribution to
`DefaultStrategy.format_params_section` (strategy.py 428-439); `sep` is
already padded, `keyParam`/`keyType` are the resolved output-style
markers.  The source's `len(p) > 2` / `len(p) > 3` guards hold for the
4-tuples produced by `__extract_params`. -/
def defaultParamChunk (cfg : CommentBuilderConfigM) (case : CaseConfigM)
    (sep keyParam keyType : PyStr) (p : OutParam) : PyStr :=
  let raw := case.spaces ++ keyParam ++ pyS " " ++ p.name ++ sep ++
    pyStrip (withSpaceDefault case.spaces cfg.indentEmptyLines p.desc)
  let raw := raw ++ defaultValueSuffix cfg.showDefaultValue p
  let raw :=
    if cfg.typeTags && p.ptype.isSome && !(p.ptype.getD []).isEmpty then
      raw ++ pyS "\n" ++ case.spaces ++ keyType ++ pyS " " ++ p.name ++ sep ++
        p.ptype.getD []
    else raw
  raw ++ pyS "\n"

/-- `DefaultStrategy.format_params_section` (strategy.py 405-440). -/
def formatParamsSectionDefault (cfg : CommentBuilderConfigM) (case : CaseConfigM)
    (params : List OutParam) : Except PyErr PyStr := do
  let raw := pyS "\n"
  if cfg.skipEmpty && params.isEmpty then
    pure raw
  else if params.isEmpty then
    pure raw
  else do
    let sep0 ← match getSepOut cfg.dst with
      | some s => Except.ok s
      | none => Except.error PyErr.keyError
    let sep := padSep sep0
    let keyParam ← match getKeyOut cfg.dst (pyS "param") with
      | some s => Except.ok s
      | none => Except.error PyErr.keyError
    let keyType ← match getKeyOut cfg.dst (pyS "type") with
      | some s => Except.ok s
      | none => Except.error PyErr.keyError
    pure (params.foldl (fun acc p =>
      acc ++ defaultParamChunk cfg case sep keyParam keyType p) raw)

/-- The Google section headers (docs_tools.py 493-502 over 412-416). -/
def googleSectionHeader (key : PyStr) (spaces : PyStr) : PyStr :=
  let header :=
    if key = pyS "param" then pyS "Args"
    else if key = pyS "return" then pyS "Returns"
    else if key = pyS "raise" then pyS "Raises"
    else []
  spaces ++ header ++ pyS ":" ++ pyS "\n"

/-- The Numpydoc section headers (docs_tools.py 369-378 over 255-259). -/
def numpydocSectionHeader (key : PyStr) (spaces : PyStr) : PyStr :=
  let header :=
    if key = pyS "param" then pyS "Parameters"
    else if key = pyS "return" then pyS "Returns"
    else if key = pyS "raise" then pyS "Raises"
    else []
  spaces ++ header ++ pyS "\n" ++ spaces ++ List.replicate header.length '-' ++ pyS "\n"

/-- One parameter's contribution to
`GoogleStrategy.format_params_section` (strategy.py 271-285). -/
def googleParamChunk (cfg : CommentBuilderConfigM) (case : CaseConfigM)
    (p : OutParam) : PyStr :=
  let indentSpaces := List.replicate cfg.numOfSpaces ' '
  let raw := case.spaces ++ indentSpaces ++ p.name
  let raw :=
    if p.ptype.isSome && !(p.ptype.getD []).isEmpty then
      let raw := raw ++ pyS " (" ++ p.ptype.getD []
      let raw := if p.dflt.isSome then raw ++ pyS ", optional" else raw
      raw ++ pyS ")"
    else raw
  let raw := raw ++ pyS ": " ++
    pyStrip (withSpaceStripped case.spaces cfg.indentEmptyLines p.desc)
  let raw := raw ++ defaultValueSuffix cfg.showDefaultValue p
  raw ++ pyS "\n"

/-- `GoogleStrategy.format_params_section` (strategy.py 249-286). -/
def formatParamsSectionGoogle (cfg : CommentBuilderConfigM) (case : CaseConfigM)
    (params : List OutParam) : PyStr :=
  let raw := pyS "\n"
  if cfg.skipEmpty && params.isEmpty then raw
  else
    let raw := raw ++ googleSectionHeader (pyS "param") case.spaces
    params.foldl (fun acc p => acc ++ googleParamChunk cfg case p) raw

/-- One parameter's contribution to
`NumpydocStrategy.format_params_section` (strategy.py 126-137). -/
def numpydocParamChunk (cfg : CommentBuilderConfigM) (case : CaseConfigM)
    (p : OutParam) : PyStr :=
  let indentSpaces := List.replicate cfg.numOfSpaces ' '
  let raw := case.spaces ++ p.name ++ pyS " :"
  let raw :=
    if p.ptype.isSome && !(p.ptype.getD []).isEmpty then
      raw ++ pyS " " ++ p.ptype.getD []
    else raw
  let raw := raw ++ pyS "\n"
  let raw := raw ++ case.spaces ++ indentSpaces ++
    pyStrip (withSpaceStripped (case.spaces ++ indentSpaces) cfg.indentEmptyLines p.desc)
  let raw := raw ++ defaultValueSuffix cfg.showDefaultValue p
  raw ++ pyS "\n"

/-- `NumpydocStrategy.format_params_section` (strategy.py 103-138). -/
def formatParamsSectionNumpydoc (cfg : CommentBuilderConfigM) (case : CaseConfigM)
    (params : List OutParam) : PyStr :=
  let raw := pyS "\n"
  if cfg.skipEmpty && params.isEmpty then raw
  else
    let raw := raw ++ numpydocSectionHeader (pyS "param") case.spaces
    params.foldl (fun acc p => acc ++ numpydocParamChunk cfg case p) raw

/-- `GroupsStrategy.format_params_section` (strategy.py 544-546): the
groups renderer is a no-op. -/
def formatParamsSectionGroups (_params : List OutParam) : PyStr := []

/-! ## Comment builders and `_define_builder`
(src/pyment/comment_builder/builder.py, function.py, class_.py,
module.py and docstring.py 698-708) -/

/-- The dialect-to-strategy dispatch `create_strategy`
(strategy.py 557-572). -/
inductive StrategyKind where
  | numpydoc
  | google
  | groups
  | default
deriving Repr, DecidableEq

def createStrategy (styleName : PyStr) : StrategyKind :=
  if styleName = pyS "numpydoc" then StrategyKind.numpydoc
  else if styleName = pyS "google" then StrategyKind.google
  else if styleName = pyS "groups" then StrategyKind.groups
  else StrategyKind.default

/-- A freshly constructed comment builder: the two parameters accepted by
`CommentBuilder.__init__` (builder.py 19-39); `FunctionCommentBuilder`,
`ClassCommentBuilder` and `ModuleCommentBuilder` all delegate to it with
the same two parameters (function.py 11-17, class_.py 11-17,
module.py 11-17). -/
structure CommentBuilderObj where
  config : CommentBuilderConfigM
  strategy : StrategyKind
deriving Repr, DecidableEq

/-- `CommentBuilder.__init__` and its subclasses accept exactly two
positional arguments besides `self`. -/
def commentBuilderInitArity : Nat := 2

/-- A Python positional constructor call: binding fails with `TypeError`
when the number of supplied arguments differs from the number of accepted
parameters. -/
def pyCallCtor {γ : Type} (accepted given : Nat) (mk : γ) : Except PyErr γ :=
  if given = accepted then Except.ok mk else Except.error PyErr.typeError

/-- `DocString._define_builder` (docstring.py 698-708): each branch calls
the respective builder class with the three positional arguments
`(self.comment_config, self.case_config, strategy)`. -/
def defineBuilder (deftype : PyStr) (config : CommentBuilderConfigM)
    (_caseCfg : CaseConfigM) : Except PyErr CommentBuilderObj :=
  let strategy := createStrategy config.dst.styleOut
  if deftype = pyS "class" then
    pyCallCtor commentBuilderInitArity 3 (CommentBuilderObj.mk config strategy)
  else if deftype = pyS "module" then
    pyCallCtor commentBuilderInitArity 3 (CommentBuilderObj.mk config strategy)
  else
    pyCallCtor commentBuilderInitArity 3 (CommentBuilderObj.mk config strategy)

theorem defineBuilder_typeError (deftype : PyStr) (config : CommentBuilderConfigM)
    (caseCfg : CaseConfigM) :
    defineBuilder deftype config caseCfg = Except.error PyErr.typeError := by
  unfold defineBuilder pyCallCtor
  split <;> simp [commentBuilderInitArity]

/-! ## The `generate_docs` pipeline (`DocString`, docstring.py 594-755) -/

/-- The value of `self.docs['in']['return']`: `None`, a plain string
(tag-style/groups extraction), or the list of `(name, desc, rtype)`
tuples of the section-style extractors. -/
inductive DocsReturn where
  | noneVal
  | str (s : PyStr)
  | list (l : List (Option PyStr × PyStr × Option PyStr))
deriving Repr, DecidableEq

/-- The value assigned to `self.docs['out']['return']` by `_set_return`. -/
inductive OutReturn where
  | noneVal
  | str (s : PyStr)
  | list (l : List (Option PyStr × PyStr × Option PyStr))
deriving Repr, DecidableEq

/-- `NumpydocTools` is constructed with `excluded_sections=()`
(docs_tools.py 217). -/
def numpydocExcludedSections : List PyStr := []

/-- `DocString.__extract_desc` (docstring.py 594-600). -/
def extractDesc (docsInDesc : Option PyStr) : PyStr :=
  if pyTruthy docsInDesc then docsInDesc.getD [] else []

/-- `DocString.__extract_raises` (docstring.py 638-647). -/
def extractRaises (styleIn styleOut : PyStr)
    (docsInRaises : List (PyStr × PyStr)) : Option (List (PyStr × PyStr)) :=
  if !docsInRaises.isEmpty then
    if styleOut ≠ pyS "numpydoc" || styleIn = pyS "numpydoc" ||
        (styleOut = pyS "numpydoc" &&
          !numpydocExcludedSections.contains (pyS "raise")) then
      some docsInRaises
    else none
  else none

/-- `DocString.__extract_return` (docstring.py 655-676). -/
def extractReturn (styleOut : PyStr) (docsInReturn : DocsReturn)
    (docsInRtype : Option PyStr) (outRtypePrev : Option PyStr)
    (elementRtype : PyStr) : Option PyStr × OutReturn :=
  let noSection := !([pyS "groups", pyS "numpydoc", pyS "google"].contains styleOut)
  let (rtype, rcomment) :=
    match docsInReturn with
    | DocsReturn.list l =>
      if noSection then
        match l with
        | [] => (none, OutReturn.noneVal)
        | e :: _ =>
          match e.1 with
          | some nm => (e.2.2, OutReturn.str (nm ++ pyS "-> " ++ e.2.1))
          | none => (e.2.2, OutReturn.str e.2.1)
      else (docsInRtype, OutReturn.list l)
    | DocsReturn.noneVal => (docsInRtype, OutReturn.noneVal)
    | DocsReturn.str s => (docsInRtype, OutReturn.str s)
  let rtype :=
    if (optionsHintRtypePriority || !pyTruthy outRtypePrev) && !elementRtype.isEmpty then
      some elementRtype
    else rtype
  (rtype, rcomment)

/-- `get_leading_spaces` (utils.py 62-72). -/
def getLeadingSpaces (s : PyStr) : PyStr := s.takeWhile pyIsSpace

/-- `NumpydocTools.get_next_section_start_line` (docs_tools.py 269-290):
a section is a line that is exactly one of the section names, followed by
a dash underline; without an underline the candidate is reset, but a
candidate on the last line is still returned. -/
def numpydocNextSectionAux : List PyStr → Nat → Option Nat → Option Nat
  | [], _, start => start
  | l :: rest, i, start =>
    match start with
    | some s =>
      if !(pyStrip l).isEmpty &&
          isinAlone [List.replicate (pyStrip l).length '-'] l then
        some s
      else
        numpydocNextSectionAux rest (i + 1)
          (if isinAlone numpydocOptVals l then some i else none)
    | none =>
      numpydocNextSectionAux rest (i + 1)
        (if isinAlone numpydocOptVals l then some i else none)

def numpydocNextSectionStart (lines : List PyStr) : Option Nat :=
  numpydocNextSectionAux lines 0 none

theorem numpydocNextSectionAux_bound :
    ∀ (lines : List PyStr) (i : Nat) (start : Option Nat) (s : Nat),
      (∀ t, start = some t → t < i) →
      numpydocNextSectionAux lines i start = some s → s < i + lines.length := by
  intro lines
  induction lines with
  | nil =>
    intro i start s hinv h
    simp [numpydocNextSectionAux] at h
    have := hinv s h
    omega
  | cons l rest ih =>
    intro i start s hinv h
    unfold numpydocNextSectionAux at h
    cases start with
    | some t =>
      by_cases hc : (!(pyStrip l).isEmpty &&
          isinAlone [List.replicate (pyStrip l).length '-'] l) = true
      · simp [hc] at h
        have := hinv t rfl
        simp
        omega
      · simp [hc] at h
        have := ih (i + 1) _ s (by
          intro u hu
          split at hu
          · simp at hu; omega
          · simp at hu) h
        simp at this ⊢
        omega
    | none =>
      simp at h
      have := ih (i + 1) _ s (by
        intro u hu
        split at hu
        · simp at hu; omega
        · simp at hu) h
      simp at this ⊢
      omega

theorem numpydocNextSectionStart_bound {lines : List PyStr} {s : Nat}
    (h : numpydocNextSectionStart lines = some s) : s < lines.length := by
  have := numpydocNextSectionAux_bound lines 0 none s (by intro t ht; cases ht) h
  omega

/-- `DocToolsBase.get_next_section_lines` (docs_tools.py 159-173). -/
def numpydocNextSectionLines (lines : List PyStr) : Option Nat × Option Nat :=
  match numpydocNextSectionStart lines with
  | none => (none, none)
  | some s => (some s, numpydocNextSectionStart (lines.drop (s + 1)))

/-- The section names carried over verbatim by `get_raw_not_managed`
(docs_tools.py 347-348): the `opt` values of the keys
`also, ref, note, other, example, method, attr`, in `opt` iteration
order. -/
def numpydocNotManagedVals : List PyStr :=
  [pyS "see also", pyS "attributes", pyS "examples", pyS "methods", pyS "notes",
   pyS "other parameters", pyS "references"]

/-- The `while` loop of `NumpydocTools.get_raw_not_managed`
(docs_tools.py 341-367). -/
def getRawNotManagedLoop (lines : List PyStr) (init : Nat) : PyStr :=
  match hs : (numpydocNextSectionLines (lines.drop init)).1 with
  | none => []
  | some s =>
    let init2 := init + s
    let keyLine := lines.getD init2 []
    let chunk :=
      if isinAlone numpydocNotManagedVals keyLine &&
          !isinAlone (numpydocExcludedSections.map id) keyLine then
        let spaces := getLeadingSpaces keyLine
        let sectionLines :=
          match (numpydocNextSectionLines (lines.drop init)).2 with
          | some e => (lines.drop init2).take e
          | none => lines.drop init2
        pyJoin (pyS "\n") (sectionLines.map fun d => pyRStrip (pyReplace1 d spaces [])) ++ pyS "\n"
      else []
    chunk ++ getRawNotManagedLoop lines (init2 + 2)
termination_by lines.length + 2 - init
decreasing_by
  have hlt : s < (lines.drop init).length := by
    unfold numpydocNextSectionLines at hs
    split at hs
    · cases hs
    · rename_i heq
      simp at hs
      subst hs
      exact numpydocNextSectionStart_bound heq
  simp only [List.length_drop] at hlt
  omega

/-- `NumpydocTools.get_raw_not_managed` (docs_tools.py 341-367). -/
def getRawNotManaged (data : PyStr) : PyStr :=
  getRawNotManagedLoop (pySplitlines data) 0

/-- `DocString.__extract_other` (docstring.py 684-691); on the first (and
only, per the one-shot rendering contract) `generate_docs` run the `out`
dict has no `post` entry yet, so the `elif` branch returns `''`. -/
def extractOther (styleIn : PyStr) (docsInRaw : Option PyStr) : Option PyStr :=
  if styleIn = pyS "numpydoc" then
    match docsInRaw with
    | some r => some (getRawNotManaged r)
    | none => some []
  else none

/-- The state of a `DocString` instance at `generate_docs` time, as far
as the pipeline reads it (docstring.py 33-109 and 735-745). -/
structure DocStringStateM where
  commentConfig : CommentBuilderConfigM
  caseSpaces : PyStr
  elementDeftype : PyStr
  elementParams : List ParamsConfig
  elementRtype : PyStr
  docsInRaw : Option PyStr
  docsInDesc : Option PyStr
  docsInParams : List (PyStr × PyStr × Option PyStr)
  docsInReturn : DocsReturn
  docsInRtype : Option PyStr
  docsInRaises : List (PyStr × PyStr)
deriving Repr, DecidableEq

/-- The `docs['out']` fields populated by `generate_docs`. -/
structure GenDocsOut where
  desc : PyStr
  params : List OutParam
  rtype : Option PyStr
  ret : OutReturn
  raises : List (PyStr × PyStr)
  post : Option PyStr
  raw : PyStr
deriving Repr, DecidableEq

/-- Dead code: `CommentBuilder.build` is never reached, because
`_define_builder` always raises a `TypeError`
(`defineBuilder_typeError`); this stub only closes the pipeline. -/
def buildStub (_b : CommentBuilderObj) : PyStr := []

/-- `DocString.generate_docs` (docstring.py 735-745): `_set_desc`,
`_set_params`, `_set_return` (which reads the still-unset
`docs['out']['rtype']`, i.e. `None`), `_set_raises` (which stores the
extracted list only when truthy, so the output list stays empty
otherwise), `_set_other`, then `_set_raw`, whose `_create_builder` call
reaches `_define_builder`. -/
def generateDocs (ds : DocStringStateM) : Except PyErr GenDocsOut := do
  let desc := extractDesc ds.docsInDesc
  let params := extractParams ds.elementParams ds.docsInParams
  let (rtype, rcomment) := extractReturn ds.commentConfig.dst.styleOut
    ds.docsInReturn ds.docsInRtype none ds.elementRtype
  let raises := (extractRaises ds.commentConfig.dst.styleIn
    ds.commentConfig.dst.styleOut ds.docsInRaises).getD []
  let post := extractOther ds.commentConfig.dst.styleIn ds.docsInRaw
  let builder ← defineBuilder ds.elementDeftype ds.commentConfig ⟨ds.caseSpaces⟩
  pure ⟨desc, params, rtype, rcomment, raises, post, buildStub builder⟩

/-- `DocString.get_raw_docs` (docstring.py 747-755). -/
def getRawDocs (ds : DocStringStateM) : Except PyErr PyStr :=
  (generateDocs ds).map (·.raw)

/-- The element type stored by `parse_definition`
(docstring.py 184-195): `def` for functions (also `async def`),
`class` for classes, and the `CaseConfig` default `'def'` otherwise. -/
def parseDeftype (raw : PyStr) : PyStr :=
  let l := pyStrip raw
  if pyStartsWith l (pyS "async def ") || pyStartsWith l (pyS "def ") ||
      pyStartsWith l (pyS "class ") then
    if pyStartsWith l (pyS "def") then pyS "def"
    else if pyStartsWith l (pyS "async") then pyS "def"
    else pyS "class"
  else pyS "def"

/-- A `DocString` constructed from a signature line with no existing
docstring (`docs_raw=None`, `input_style=None`): `__init__` skips the
style auto-detection and runs `parse_definition`; all `docs['in']`
fields stay at their initial values (docstring.py 36-109). -/
def mkDocStringFromDef (raw : PyStr) (cfg : CommentBuilderConfigM)
    (spaces : PyStr) : Except PyErr DocStringStateM := do
  let (ps, rt) ← parseDefinition raw
  pure { commentConfig := cfg, caseSpaces := spaces,
         elementDeftype := parseDeftype raw, elementParams := ps,
         elementRtype := rt, docsInRaw := none, docsInDesc := none,
         docsInParams := [], docsInReturn := DocsReturn.noneVal,
         docsInRtype := none, docsInRaises := [] }

/-! ## Tag-style element extraction
(`DocsTools._extra_tagstyle_elements` and `DocsTools.__parse_param`,
docs_tools.py 889-980) -/

/-- The values of the `ret` dict of `_extra_tagstyle_elements`. -/
structure TagParamInfo where
  ptype : Option PyStr
  typeInParam : Option PyStr
  description : Option PyStr
deriving Repr, DecidableEq

/-- The `ParsedElement` dataclass (docs_tools.py 9-12). -/
structure ParsedElementM where
  nature : PyStr
  name : Option PyStr
deriving Repr, DecidableEq

/-- `re.split(r'\s+', s)`: split on maximal whitespace runs, keeping the
empty edge tokens Python produces for leading/trailing separators. -/
def pyReSplitWsAux : Nat → PyStr → PyStr → List PyStr
  | _, [], acc => [acc.reverse]
  | 0, s, acc => [acc.reverse ++ s]
  | fuel + 1, c :: t, acc =>
    if pyIsSpace c then
      acc.reverse :: pyReSplitWsAux fuel (t.dropWhile pyIsSpace) []
    else pyReSplitWsAux fuel t (c :: acc)

def pyReSplitWs (s : PyStr) : List PyStr := pyReSplitWsAux s.length s []

def tagDictUpdate (ret : List (PyStr × TagParamInfo)) (k : PyStr)
    (f : TagParamInfo → TagParamInfo) : List (PyStr × TagParamInfo) :=
  ret.map fun kv => if kv.1 = k then (kv.1, f kv.2) else kv

/-- `DocsTools.__parse_param` (docs_tools.py 889-921).  The two
`print("WARNING: ...")` diagnostics have no modelled effect; on those
paths `current_element.name` stays `None`. -/
def parseParamLine (styleParam : PyStr) (striped : PyStr)
    (ret : List (PyStr × TagParamInfo)) :
    ParsedElementM × List (PyStr × TagParamInfo) :=
  let line := pyStrip (pyReplace1 striped styleParam [])
  let (paramPart, paramDescription) : Option PyStr × Option PyStr :=
    match pyFind line (pyS ":") with
    | some i => (some (line.take i), some (line.drop (i + 1)))
    | none => (none, none)
  let (paramType, paramName) : Option PyStr × Option PyStr :=
    match paramPart with
    | none => (none, none)
    | some pp =>
      let res := pyReSplitWs (pyStrip pp)
      if res.length = 1 then (none, some (pyStrip (res.getD 0 [])))
      else if res.length = 2 then
        (some (pyStrip (res.getD 0 [])), some (pyStrip (res.getD 1 [])))
      else (none, none)
  if pyTruthy paramName then
    let nm := paramName.getD []
    let ret :=
      if ret.any (fun kv => kv.1 = nm) then ret
      else ret ++ [(nm, ⟨none, none, none⟩)]
    let ret :=
      if pyTruthy paramType then
        tagDictUpdate ret nm (fun info => { info with typeInParam := paramType })
      else ret
    let ret :=
      if pyTruthy paramDescription then
        tagDictUpdate ret nm
          (fun info => { info with description := some (pyStrip (paramDescription.getD [])) })
      else ret
    (⟨pyS "param", some nm⟩, ret)
  else
    (⟨pyS "param", none⟩, ret)

/-- `DocsTools.__parse_param_type` (docs_tools.py 923-945). -/
def parseParamTypeLine (styleType : PyStr) (striped : PyStr)
    (ret : List (PyStr × TagParamInfo)) :
    ParsedElementM × List (PyStr × TagParamInfo) :=
  let line := pyStrip (pyReplace1 striped styleType [])
  let (paramName, paramType) : Option PyStr × Option PyStr :=
    match pyFind line (pyS ":") with
    | some i => (some (pyStrip (line.take i)), some (pyStrip (line.drop (i + 1))))
    | none => (none, none)
  if pyTruthy paramName then
    let nm := paramName.getD []
    let ret :=
      if ret.any (fun kv => kv.1 = nm) then ret
      else ret ++ [(nm, ⟨none, none, none⟩)]
    let ret :=
      if pyTruthy paramType then
        tagDictUpdate ret nm
          (fun info => { info with ptype := some (pyStrip (paramType.getD [])) })
      else ret
    (⟨pyS "type", some nm⟩, ret)
  else
    (⟨pyS "type", none⟩, ret)

/-- Appending a continuation line to the open element's description:
`ret[current_element.name]['description'] += f"\n{line}"`
(docs_tools.py 972-979); a `None` name (left over from a malformed
line) or a name that was never inserted makes the dict lookup raise
`KeyError`. -/
def appendContinuation (ret : List (PyStr × TagParamInfo))
    (name : Option PyStr) (line : PyStr) :
    Except PyErr (List (PyStr × TagParamInfo)) :=
  match name with
  | none => Except.error PyErr.keyError
  | some nm =>
    match pyLookup ret nm with
    | none => Except.error PyErr.keyError
    | some info =>
      let d0 := (info.description).getD []
      Except.ok (tagDictUpdate ret nm
        (fun i => { i with description := some (d0 ++ '\n' :: line) }))

/-- `DocsTools._extra_tagstyle_elements` (docs_tools.py 947-980). -/
def extraTagstyleElements (styleIn : PyStr) (data : PyStr) :
    Except PyErr (List (PyStr × TagParamInfo)) := do
  let styleParam ← match optName (pyS "param") styleIn with
    | some s => Except.ok s
    | none => Except.error PyErr.keyError
  let styleType ← match optName (pyS "type") styleIn with
    | some s => Except.ok s
    | none => Except.error PyErr.keyError
  let styleRtype ← match optName (pyS "rtype") styleIn with
    | some s => Except.ok s
    | none => Except.error PyErr.keyError
  let styleReturn := ((optName (pyS "return") styleIn).getD []).dropLast
  let styleRaise := ((optName (pyS "raise") styleIn).getD []).dropLast
  let step := fun (st : List (PyStr × TagParamInfo) × Option ParsedElementM)
      (line : PyStr) => do
    let (ret, current) := st
    let striped := pyStrip line
    if pyStartsWith striped styleParam then
      let (ce, ret2) := parseParamLine styleParam striped ret
      Except.ok (ret2, some ce)
    else if pyStartsWith striped styleType then
      let (ce, ret2) := parseParamTypeLine styleType striped ret
      Except.ok (ret2, some ce)
    else if pyStartsWith striped styleRaise || pyStartsWith striped styleReturn ||
        pyStartsWith striped styleRtype then
      Except.ok (ret, some ⟨pyS "raise-return", none⟩)
    else
      match current with
      | some ce =>
        if ce.nature = pyS "param" then do
          let ret2 ← appendContinuation ret ce.name line
          Except.ok (ret2, current)
        else if ce.nature = pyS "type" then do
          let ret2 ← appendContinuation ret ce.name line
          Except.ok (ret2, current)
        else
          Except.ok (ret, current)
      | none => Except.ok (ret, current)
  let st ← (pySplitlines data).foldlM step ([], none)
  pure st.1

/-! ## Legacy index-scan extraction for tag-style raises
(`DocsTools.get_key_index`, `get_elem_index`, `get_raise_indexes`,
`get_raise_description_indexes` in docs_tools.py, and
`DocString._extract_tagstyle_docs_raises`, docstring.py 468-493) -/

/-- The scanning loop of `DocsTools.get_key_index` (docs_tools.py
776-792): on a non-line-starting occurrence the scan continues after it
(`ini = i + 1; data = data[ini:]`); a found occurrence yields `ini + i`
with the current (shrunk) window's `ini`; when nothing is found the
initial `idx = len(data)` sentinel survives.  Returns the index value and
the final `data` variable (against whose length the sentinel is compared
afterwards).  Fuel `data.length + 1` suffices: every skip drops at least
one character. -/
def getKeyIndexLoop (key : PyStr) (idx0 : Nat) (starting : Bool) :
    Nat → PyStr → Nat → Int × PyStr
  | 0, data, _ => ((idx0 : Int), data)
  | fuel + 1, data, ini =>
    match pyFind data key with
    | none => ((idx0 : Int), data)
    | some i =>
      if starting then
        if !pyEndsWith (pyRStripChars [' ', '\t'] (data.take i)) (pyS "\n") &&
            (pyStrip (data.take i)).length > 0 then
          getKeyIndexLoop key idx0 starting fuel (data.drop (i + 1)) (i + 1)
        else (((ini + i : Nat) : Int), data)
      else (((ini + i : Nat) : Int), data)

/-- `DocsTools.get_key_index` (docs_tools.py 760-795).  The `:returns`
key first rewrites `:return:` to `:returns:` in the scanned data. -/
def getKeyIndex (styleIn : PyStr) (data : PyStr) (key : PyStr)
    (starting : Bool) : Except PyErr Int := do
  let kname ← match optName key styleIn with
    | some s => Except.ok s
    | none => Except.error PyErr.keyError
  let data :=
    if pyStartsWith kname (pyS ":returns") then
      pyReplace data (pyS ":return:") (pyS ":returns:")
    else data
  let idx0 := data.length
  let (idx, dataF) :=
    if pyContainsSub data kname then
      getKeyIndexLoop kname idx0 starting (data.length + 1) data 0
    else ((idx0 : Int), data)
  pure (if idx = (dataF.length : Int) then -1 else idx)

/-- `DocsTools.get_elem_index` (docs_tools.py 797-815): the minimum of
the key indexes over the six `opt` keys, in `opt` order. -/
def getElemIndex (styleIn : PyStr) (data : PyStr) (starting : Bool) :
    Except PyErr Int := do
  let idx ← optKeys.foldlM (fun (acc : Int) key => do
      let i ← getKeyIndex styleIn data key starting
      pure (if i < acc ∧ i ≠ -1 then i else acc))
    ((data.length : Nat) : Int)
  pure (if idx = (data.length : Int) then -1 else idx)

/-- `re.match(r'^([\w.]+)', s)` (`RAISES_NAME_REGEX`, utils.py 13). -/
def matchWordDot (s : PyStr) : Option PyStr :=
  let w := s.takeWhile (fun c => pyIsWord c || c = '.')
  if w.isEmpty then none else some w

/-- `re.match(r'\W*(\w+)', s)`: greedily skip non-word characters, then
capture the leading word-character run. -/
def matchNonWordWord (s : PyStr) : Option PyStr :=
  let w := (s.dropWhile (fun c => !pyIsWord c)).takeWhile pyIsWord
  if w.isEmpty then none else some w

/-- `DocsTools.get_raise_indexes` (docs_tools.py 823-853): the `opt`
lookup of the raise marker happens before the style test, so an unknown
input style raises `KeyError` there. -/
def getRaiseIndexes (styleIn : PyStr) (data : PyStr) :
    Except PyErr (Int × Int) := do
  let stlParam ← match optName (pyS "raise") styleIn with
    | some s => Except.ok s
    | none => Except.error PyErr.keyError
  if tagstyles.contains styleIn || styleIn = pyS "unknown" then do
    let idxP ← getKeyIndex styleIn data (pyS "raise") true
    if idxP ≥ 0 then
      let idxP := idxP + (stlParam.length : Int)
      match matchWordDot (pyStrip (pyDropInt data idxP)) with
      | some param =>
        let start := idxP + toIntIdx (pyFind (pyDropInt data idxP) param)
        pure (start, start + (param.length : Int))
      | none => pure (-1, -1)
    else pure (-1, -1)
  else pure (-1, -1)

/-- `DocsTools.get_raise_description_indexes` (docs_tools.py 855-887);
`prev` is the end index of the raise name (a falsy `prev`, i.e. `0` or
`None`, would be recomputed; the caller always passes a positive one). -/
def getRaiseDescriptionIndexes (styleIn : PyStr) (data : PyStr)
    (prev0 : Int) : Except PyErr (Int × Int) := do
  let prev ← if prev0 = 0 then do
      let (_, e) ← getRaiseIndexes styleIn data
      pure e
    else pure prev0
  if prev < 0 then pure (-1, -1)
  else
    match matchNonWordWord (pyDropInt data prev) with
    | none => pure (-1, -1)
    | some first =>
      let startRel := toIntIdx (pyFind (pyDropInt data prev) first)
      if startRel ≥ 0 then do
        let start := startRel + prev
        let end1 ←
          if tagstyles.contains styleIn || styleIn = pyS "unknown" then do
            let e ← getElemIndex styleIn (pyDropInt data start) true
            pure (if e ≥ 0 then e + start else e)
          else pure (-1 : Int)
        let end2 ←
          if (styleIn = pyS "params" || styleIn = pyS "unknown") && end1 = -1 then do
            let (p1, _) ← getRaiseIndexes styleIn (pyDropInt data start)
            pure (if p1 ≥ 0 then p1 else ((data.length : Nat) : Int))
          else pure end1
        pure (start, end2)
      else pure (startRel, -1)

/-- The `maxi` iteration cap of the legacy scan loops
(docstring.py 399, 473; docs_tools.py 986). -/
def scanLoopMaxi : Nat := 10000

/-- The `while` loop of `DocString._extract_tagstyle_docs_raises`
(docstring.py 471-491): `i` is incremented first; exceeding the cap
clears the loop flag but the current iteration's body still runs; a
found raise appends `(name, description)` and continues on `data[end:]`
(Python slicing: for `end = -1` that is the final character).  Returns
the collected list and the final `i`.  Fuel `scanLoopMaxi + 2` suffices:
the flag stops recursion at `i = scanLoopMaxi + 1`. -/
def tagstyleRaisesLoop (styleIn : PyStr) :
    Nat → Nat → PyStr → List (PyStr × PyStr) →
    Except PyErr (List (PyStr × PyStr) × Nat)
  | 0, i, _, acc => Except.ok (acc, i)
  | fuel + 1, i, data, acc => do
    let i2 := i + 1
    let loopFlag := !(i2 > scanLoopMaxi)
    let (s, e) ← getRaiseIndexes styleIn data
    if s ≥ 0 then do
      let param := pySlice data s e
      let (ds, de) ← getRaiseDescriptionIndexes styleIn data e
      let desc := if ds > 0 then pyStrip (pySlice data ds de) else []
      let acc2 := acc ++ [(param, desc)]
      let data2 := pyDropInt data de
      if loopFlag then tagstyleRaisesLoop styleIn fuel i2 data2 acc2
      else Except.ok (acc2, i2)
    else Except.ok (acc, i2)

/-- `DocString._extract_tagstyle_docs_raises` (docstring.py 468-493):
preprocesses the raw docstring lines (`rstrip`, then one removal of the
output indentation), runs the capped scan loop, and reports whether the
cap was exceeded — which the source surfaces as a `print("WARNING: ...")`
diagnostic before returning normally. -/
def extractTagstyleRaises (styleIn : PyStr) (outSpaces : PyStr)
    (raw : PyStr) : Except PyErr (List (PyStr × PyStr) × Bool) := do
  let data := pyJoin (pyS "\n")
    ((pySplitlines raw).map fun d => pyReplace1 (pyRStrip d) outSpaces [])
  let (acc, i) ← tagstyleRaisesLoop styleIn (scanLoopMaxi + 2) 0 data []
  pure (acc, decide (i > scanLoopMaxi))

/-! ## Claim theorems -/

/-- A default-shaped resolved configuration (reST output, javadoc input,
defaults of `pyment.configs.CommentBuilderConfig`). -/
def defaultRenderConfig : CommentBuilderConfigM :=
  { dst := ⟨pyS "javadoc", pyS "reST", []⟩, spaces := [], numOfSpaces := 4,
    skipEmpty := false, showDefaultValue := true, indentEmptyLines := true,
    typeTags := true }

/-- C10: for every `DocString` state — hence for every element type and
configuration — the render step fails with a `TypeError` before producing
any output: `_define_builder` passes the three positional arguments
`(comment_config, case_config, strategy)` to builder constructors that
accept only `(config, strategy)`, so `generate_docs` and `get_raw_docs`
never return a docstring string. -/
theorem generate_docs_always_type_error (ds : DocStringStateM) :
    generateDocs ds = Except.error PyErr.typeError ∧
    getRawDocs ds = Except.error PyErr.typeError ∧
    ∀ (deftype : PyStr) (cfg : CommentBuilderConfigM) (cc : CaseConfigM),
      defineBuilder deftype cfg cc = Except.error PyErr.typeError := by
  refine ⟨?_, ?_, fun deftype cfg cc => defineBuilder_typeError deftype cfg cc⟩
  · unfold generateDocs
    rw [defineBuilder_typeError]
    rfl
  · unfold getRawDocs generateDocs
    rw [defineBuilder_typeError]
    rfl

/-- C1 (code bug at the failing input): a `DocString` built from
`def f():` with no existing docstring and reST output cannot be rendered
at all — `get_raw_docs` raises `TypeError` instead of returning text, so
no render/extract/render round trip can even start. -/
theorem round_trip_render_crashes :
    (do
      let ds ← mkDocStringFromDef (pyS "def f():") defaultRenderConfig []
      getRawDocs ds : Except PyErr PyStr) = Except.error PyErr.typeError := rfl

/-- C9 (counterexample): the components do mutate the configuration's
dialect-descriptor state.  Running style auto-detection — as
`DocString.__init__`/`parse_docs` do on every element with an existing
docstring — on a Numpydoc-shaped text overwrites the descriptor's
input-style setting (`javadoc` becomes `numpydoc`), so the configuration
object passed by reference is not left unchanged. -/
theorem autodetect_mutates_config :
    (autodetectStyleSt ⟨pyS "javadoc", pyS "reST", []⟩
        (pyS "Parameters\n----------")).2.styleIn ≠
      (DocsToolsState.mk (pyS "javadoc") (pyS "reST") []).styleIn := by
  decide

/-- C9 (amended): the mutation is confined to the dialect-descriptor
state: `autodetect_style` overwrites exactly the input-style field (and
returns the detected style), `set_input_style` overwrites exactly the
input-style field, and `set_known_parameters` overwrites exactly the
known-parameters list; the descriptor's other state is preserved by each
operation. -/
theorem config_mutation_confined (st : DocsToolsState) (data style : PyStr)
    (ps : List ParamsConfig) :
    autodetectStyleSt st data =
      (autodetectStyle data, { st with styleIn := autodetectStyle data }) ∧
    setInputStyleSt st style = { st with styleIn := style } ∧
    setKnownParametersSt st ps = { st with params := ps } :=
  ⟨rfl, rfl, rfl⟩

/-- C7 (code bug at the failing input): a tag-style parameter line with a
missing `:` separator leaves the open element's name as `None`; the
continuation line that follows then evaluates
`ret[current_element.name]`, raising `KeyError` — extraction does not
continue.  The same malformed line without a continuation line is
recovered with only a warning, which isolates the crash to the
continuation-line case the claim covers. -/
theorem malformed_param_continuation_keyerror :
    extraTagstyleElements (pyS "reST")
        (pyS ":param x the input\n    continuation") =
      Except.error PyErr.keyError ∧
    extraTagstyleElements (pyS "reST") (pyS ":param x the input") =
      Except.ok [] := ⟨rfl, rfl⟩

/-- C5 (counterexample): the tokenizer does not count nesting depth — it
keeps a single open-region marker.  In `def f(x=((1,2),3)):` the first
`)` closes the region opened by the first `(`, so the following comma is
treated as a parameter separator: the signature yields the two entries
`x` (default `((1,2)`) and `3)` instead of one parameter `x` with
default `((1,2),3)`. -/
theorem nested_same_bracket_splits_param :
    parseDefinitionParams (pyS "def f(x=((1,2),3)):") =
      Except.ok [⟨pyS "x", [], pyS "((1,2)"⟩, ⟨pyS "3)", [], []⟩] ∧
    extractSignatureElements (pyS "f(x=((1,2),3)):") =
      Except.ok ([⟨pyS "x", [], pyS "((1,2)"⟩, ⟨pyS "3)", [], []⟩], []) := ⟨rfl, rfl⟩

theorem sigRun_nested_aux (b : Char) :
    ∀ (cs : PyStr), (∀ c ∈ cs, c ≠ (endInside b).getD b) →
      ∀ (done : List ParamsConfig) (cur : ParamsConfig),
      (sigRun ⟨done, cur, Reading.type, some b⟩ cs =
        Except.ok ⟨done, { cur with type := cur.type ++ cs }, Reading.type, some b⟩) ∧
      (sigRun ⟨done, cur, Reading.default, some b⟩ cs =
        Except.ok ⟨done, { cur with default := cur.default ++ cs }, Reading.default, some b⟩) := by
  intro cs
  induction cs with
  | nil =>
    intro _ done cur
    constructor <;> simp [sigRun, List.foldlM, pure, Except.pure]
  | cons c cs ih =>
    intro hcs done cur
    have hc : c ≠ (endInside b).getD b := hcs c (List.mem_cons_self c cs)
    have hcs2 : ∀ x ∈ cs, x ≠ (endInside b).getD b := fun x hx =>
      hcs x (List.mem_cons_of_mem c hx)
    constructor
    · have hstep : sigStep ⟨done, cur, Reading.type, some b⟩ c =
          Except.ok ⟨done, { cur with type := cur.type ++ [c] }, Reading.type, some b⟩ := by
        simp [sigStep, hc, sigAppendNested]
      have hrun : sigRun ⟨done, cur, Reading.type, some b⟩ (c :: cs) =
          sigRun ⟨done, { cur with type := cur.type ++ [c] }, Reading.type, some b⟩ cs := by
        simp only [sigRun, List.foldlM]
        rw [hstep]
        rfl
      rw [hrun, (ih hcs2 done { cur with type := cur.type ++ [c] }).1]
      simp
    · have hstep : sigStep ⟨done, cur, Reading.default, some b⟩ c =
          Except.ok ⟨done, { cur with default := cur.default ++ [c] }, Reading.default, some b⟩ := by
        simp [sigStep, hc, sigAppendNested]
      have hrun : sigRun ⟨done, cur, Reading.default, some b⟩ (c :: cs) =
          sigRun ⟨done, { cur with default := cur.default ++ [c] }, Reading.default, some b⟩ cs := by
        simp only [sigRun, List.foldlM]
        rw [hstep]
        rfl
      rw [hrun, (ih hcs2 done { cur with default := cur.default ++ [c] }).2]
      simp

/-- C5 (amended): while a nested region opened for a `type` or `default`
field is pending and no character equal to the region's closing character
arrives, every character — separators `,`/`:`/`=` included — is appended
verbatim to the active field and no new parameter entry is started.  (The
tokenizer keeps a single open-region marker rather than a depth counter,
so the protection ends at the first closing character of the same kind,
as the counterexample shows; a region opened while a parameter *name* is
being read raises the source's `Exception` instead.) -/
theorem nested_region_protects_separators (st : SigState) (b : Char) (cs : PyStr)
    (hin : st.inside = some b)
    (hr : st.reading = Reading.type ∨ st.reading = Reading.default)
    (hcs : ∀ c ∈ cs, c ≠ (endInside b).getD b) :
    sigRun st cs = Except.ok { st with cur :=
      if st.reading = Reading.type then
        { st.cur with type := st.cur.type ++ cs }
      else
        { st.cur with default := st.cur.default ++ cs } } := by
  obtain ⟨sdone, scur, sreading, sinside⟩ := st
  simp only at hin hr ⊢
  subst hin
  rcases hr with hr | hr <;> subst hr
  · simpa using (sigRun_nested_aux b cs hcs sdone scur).1
  · simpa using (sigRun_nested_aux b cs hcs sdone scur).2

/-- Witness for `nested_region_protects_separators`: inside a `(`-region
of a default value, the characters `1,2` (comma included) are appended
verbatim and no new parameter is started. -/
theorem nested_region_protects_separators_witness :
    (∀ c ∈ pyS "1,2", c ≠ (endInside '(').getD '(') ∧
    sigRun ⟨[], ⟨pyS "x", [], pyS "("⟩, Reading.default, some '('⟩ (pyS "1,2") =
      Except.ok ⟨[], ⟨pyS "x", [], pyS "(1,2"⟩, Reading.default, some '('⟩ := by
  refine ⟨by decide, ?_⟩
  have h := nested_region_protects_separators
    ⟨[], ⟨pyS "x", [], pyS "("⟩, Reading.default, some '('⟩ '(' (pyS "1,2")
    rfl (Or.inr rfl) (by decide)
  simpa using h

/-- C8: a parameter whose description already contains the word `default`
(any letter case) never receives a `(Default value = ...)` suffix: the
shared suffix guard yields the empty string, and each per-dialect
parameter renderer produces exactly the output it would produce with the
default-value echo feature disabled (the groups renderer emits nothing at
all). -/
theorem default_echo_guard (cfg : CommentBuilderConfigM) (case : CaseConfigM)
    (sep keyParam keyType : PyStr) (p : OutParam) (ps : List OutParam)
    (h : pyContainsSub (pyLower p.desc) (pyS "default") = true) :
    defaultValueSuffix cfg.showDefaultValue p = [] ∧
    defaultParamChunk cfg case sep keyParam keyType p =
      defaultParamChunk { cfg with showDefaultValue := false } case sep keyParam keyType p ∧
    googleParamChunk cfg case p =
      googleParamChunk { cfg with showDefaultValue := false } case p ∧
    numpydocParamChunk cfg case p =
      numpydocParamChunk { cfg with showDefaultValue := false } case p ∧
    formatParamsSectionGroups ps = [] := by
  have hsuf : ∀ b : Bool, defaultValueSuffix b p = [] := by
    intro b
    simp [defaultValueSuffix, h]
  refine ⟨hsuf _, ?_, ?_, ?_, rfl⟩
  · simp [defaultParamChunk, hsuf]
  · simp [googleParamChunk, hsuf]
  · simp [numpydocParamChunk, hsuf]

/-- Witness for `default_echo_guard`: a concrete parameter whose
description contains `Default` keeps a suffix-free reST line even with
the echo feature enabled. -/
theorem default_echo_guard_witness :
    pyContainsSub (pyLower (pyS "uses the Default of 5")) (pyS "default") = true ∧
    defaultParamChunk defaultRenderConfig ⟨pyS "    "⟩ (pyS ": ") (pyS ":param")
        (pyS ":type") ⟨pyS "x", pyS "uses the Default of 5", some (pyS "int"), some (pyS "5")⟩ =
      defaultParamChunk { defaultRenderConfig with showDefaultValue := false }
        ⟨pyS "    "⟩ (pyS ": ") (pyS ":param") (pyS ":type")
        ⟨pyS "x", pyS "uses the Default of 5", some (pyS "int"), some (pyS "5")⟩ := by
  refine ⟨by decide, ?_⟩
  exact (default_echo_guard defaultRenderConfig ⟨pyS "    "⟩ (pyS ": ") (pyS ":param")
    (pyS ":type") ⟨pyS "x", pyS "uses the Default of 5", some (pyS "int"), some (pyS "5")⟩
    [] (by decide)).2.1

/-! ### Dict lemmas for the merge theorems -/

theorem pyDictInsert_of_not_mem {α : Type} (d : List (PyStr × α)) (k : PyStr)
    (v : α) (h : ∀ kv ∈ d, kv.1 ≠ k) : pyDictInsert d k v = d ++ [(k, v)] := by
  unfold pyDictInsert
  have : d.any (fun kv => kv.1 = k) = false := by
    simp only [List.any_eq_false]
    intro kv hkv
    simp [h kv hkv]
  simp [this]

theorem pyDictOf_aux {α : Type} :
    ∀ (l acc : List (PyStr × α)), (l.map (·.1)).Nodup →
      (∀ kv ∈ acc, ∀ kw ∈ l, kv.1 ≠ kw.1) →
      l.foldl (fun d kv => pyDictInsert d kv.1 kv.2) acc = acc ++ l := by
  intro l
  induction l with
  | nil => intro acc _ _; simp
  | cons hd tl ih =>
    intro acc hnd hdisj
    have h1 : pyDictInsert acc hd.1 hd.2 = acc ++ [hd] := by
      rw [pyDictInsert_of_not_mem]
      intro kv hkv
      exact hdisj kv hkv hd (List.mem_cons_self hd tl)
    have hnd2 : (tl.map (·.1)).Nodup := by
      simp only [List.map_cons, List.nodup_cons] at hnd
      exact hnd.2
    have hhd : hd.1 ∉ tl.map (·.1) := by
      simp only [List.map_cons, List.nodup_cons] at hnd
      exact hnd.1
    have hdisj2 : ∀ kv ∈ acc ++ [hd], ∀ kw ∈ tl, kv.1 ≠ kw.1 := by
      intro kv hkv kw hkw
      rcases List.mem_append.mp hkv with hkv | hkv
      · exact hdisj kv hkv kw (List.mem_cons_of_mem hd hkw)
      · simp at hkv
        subst hkv
        intro hc
        exact hhd (by
          rw [hc]
          exact List.mem_map_of_mem (·.1) hkw)
    calc (hd :: tl).foldl (fun d kv => pyDictInsert d kv.1 kv.2) acc
        = tl.foldl (fun d kv => pyDictInsert d kv.1 kv.2) (acc ++ [hd]) := by
          simp [List.foldl_cons, h1]
      _ = (acc ++ [hd]) ++ tl := ih (acc ++ [hd]) hnd2 hdisj2
      _ = acc ++ hd :: tl := by simp

theorem pyDictOf_nodup {α : Type} (l : List (PyStr × α))
    (h : (l.map (·.1)).Nodup) : pyDictOf l = l := by
  have := pyDictOf_aux l [] h (by intro kv hkv; cases hkv)
  simpa [pyDictOf] using this

theorem extractParamEntry_name (n t d : PyStr) (o : Option DsParamInfo) :
    (extractParamEntry n t d o).name = n := by
  cases o <;> rfl

theorem extractParamEntry_ptype_sig (n t d : PyStr) (o : Option DsParamInfo)
    (ht : t ≠ []) : (extractParamEntry n t d o).ptype = some t := by
  have hne : t.isEmpty = false := by
    cases t with
    | nil => exact absurd rfl ht
    | cons a l => rfl
  cases o with
  | none => simp [extractParamEntry, hne]
  | some info =>
    simp [extractParamEntry, hne, pyTruthy, optionsHintTypePriority]

theorem parseDefinitionParams_keep {raw : PyStr} {ps : List ParamsConfig}
    (h : parseDefinitionParams raw = Except.ok ps) :
    ∀ e ∈ ps, keepSignatureParam e = true := by
  unfold parseDefinitionParams parseDefinition at h
  by_cases h1 : (pyStartsWith (pyStrip raw) (pyS "async def ") ||
      pyStartsWith (pyStrip raw) (pyS "def ") ||
      pyStartsWith (pyStrip raw) (pyS "class ")) = true
  · by_cases h2 : pyStartsWith (pyStrip raw) (pyS "def") = true
    · simp only [h1, h2, if_true] at h
      cases hx : extractSignatureElements
          (removeSignatureComment (pyReplace (pyStrip raw) (pyS "def ") [])) with
      | error er =>
        rw [hx] at h
        simp [Except.map, Except.bind, bind] at h
      | ok pr =>
        rw [hx] at h
        simp only [Except.map, Except.bind, bind, pure, Except.pure] at h
        cases h
        intro e he
        exact (List.mem_filter.mp he).2
    · by_cases h3 : pyStartsWith (pyStrip raw) (pyS "async") = true
      · simp only [h1, h2, h3, if_true, if_false, Bool.false_eq_true] at h
        cases hx : extractSignatureElements
            (removeSignatureComment (pyReplace (pyStrip raw) (pyS "async def ") [])) with
        | error er =>
          rw [hx] at h
          simp [Except.map, Except.bind, bind] at h
        | ok pr =>
          rw [hx] at h
          simp only [Except.map, Except.bind, bind, pure, Except.pure] at h
          cases h
          intro e he
          exact (List.mem_filter.mp he).2
      · simp only [h1, h2, h3, if_true, if_false, Bool.false_eq_true] at h
        simp only [pure, Except.pure, Except.map] at h
        cases h
        intro e he
        cases he
  · simp only [h1, if_false, Bool.false_eq_true] at h
    simp only [pure, Except.pure, Except.map] at h
    cases h
    intro e he
    cases he

/-- C2: for a signature whose (parsed, `self`/`cls`/empty-filtered)
parameters have pairwise distinct names, the merged output parameter list
has exactly one entry per signature parameter name, in signature order;
`self`/`cls` never appear (they are filtered by `parse_definition`), and
every output name is a signature name, so comment-documented parameters
absent from the signature are dropped. -/
theorem signature_parameter_fidelity (raw : PyStr) (ps : List ParamsConfig)
    (docs : List (PyStr × PyStr × Option PyStr))
    (hparse : parseDefinitionParams raw = Except.ok ps)
    (hnd : (ps.map (·.param)).Nodup) :
    (extractParams ps docs).map (·.name) = ps.map (·.param) ∧
    pyS "self" ∉ (extractParams ps docs).map (·.name) ∧
    pyS "cls" ∉ (extractParams ps docs).map (·.name) ∧
    ∀ n ∈ (extractParams ps docs).map (·.name), n ∈ ps.map (·.param) := by
  have hkeys : ((ps.map fun e => (e.param, (e.type, e.default))).map (·.1)).Nodup := by
    simpa [List.map_map, Function.comp] using hnd
  have hd := pyDictOf_nodup _ hkeys
  have hmain : (extractParams ps docs).map (·.name) = ps.map (·.param) := by
    simp only [extractParams]
    rw [hd, List.map_map, List.map_map]
    apply List.map_congr_left
    intro e _
    simp [extractParamEntry_name]
  refine ⟨hmain, ?_, ?_, ?_⟩
  · rw [hmain]
    intro hmem
    obtain ⟨e, he, hpe⟩ := List.mem_map.mp hmem
    have hk := parseDefinitionParams_keep hparse e he
    rw [keepSignatureParam, hpe] at hk
    simp at hk
  · rw [hmain]
    intro hmem
    obtain ⟨e, he, hpe⟩ := List.mem_map.mp hmem
    have hk := parseDefinitionParams_keep hparse e he
    rw [keepSignatureParam, hpe] at hk
    simp at hk
  · intro n hn
    rw [hmain] at hn
    exact hn

def c2WitnessPs : List ParamsConfig := [⟨pyS "a", [], []⟩, ⟨pyS "b", [], pyS "2"⟩]

def c2WitnessDocs : List (PyStr × PyStr × Option PyStr) :=
  [(pyS "c", pyS "dropped", none)]

/-- Witness for `signature_parameter_fidelity`: `def f(self, a, b=2):`
merged with a comment documenting an unknown parameter `c` yields exactly
the entries `a, b` in order. -/
theorem signature_parameter_fidelity_witness :
    parseDefinitionParams (pyS "def f(self, a, b=2):") = Except.ok c2WitnessPs ∧
    ((extractParams c2WitnessPs c2WitnessDocs).map (·.name) =
        c2WitnessPs.map (·.param) ∧
      pyS "self" ∉ (extractParams c2WitnessPs c2WitnessDocs).map (·.name) ∧
      pyS "cls" ∉ (extractParams c2WitnessPs c2WitnessDocs).map (·.name) ∧
      ∀ n ∈ (extractParams c2WitnessPs c2WitnessDocs).map (·.name),
        n ∈ c2WitnessPs.map (·.param)) :=
  ⟨rfl, signature_parameter_fidelity (pyS "def f(self, a, b=2):")
    c2WitnessPs c2WitnessDocs rfl (by decide)⟩

/-- C3: under the default options (`hint_type_priority = True`), a
parameter with a nonempty signature-declared type keeps that type in the
merged output even when the existing comment declares a different type
for it. -/
theorem type_hint_priority (sig : List ParamsConfig)
    (docs : List (PyStr × PyStr × Option PyStr)) (e : ParamsConfig)
    (ddesc dtype : PyStr)
    (hnd : (sig.map (·.param)).Nodup)
    (he : e ∈ sig) (ht : e.type ≠ [])
    (hdoc : (e.param, ddesc, some dtype) ∈ docs) (hdiff : dtype ≠ e.type)
    (out : OutParam) (hout : out ∈ extractParams sig docs)
    (hname : out.name = e.param) :
    out.ptype = some e.type := by
  have hkeys : ((sig.map fun x => (x.param, (x.type, x.default))).map (·.1)).Nodup := by
    simpa [List.map_map, Function.comp] using hnd
  have hd := pyDictOf_nodup _ hkeys
  simp only [extractParams] at hout
  rw [hd, List.map_map] at hout
  obtain ⟨p, hp, hpe⟩ := List.mem_map.mp hout
  have hpname : out.name = p.param := by
    rw [← hpe]
    simp [extractParamEntry_name]
  have hpe2 : p = e := by
    apply List.inj_on_of_nodup_map hnd hp he
    rw [← hpname, hname]
  subst hpe2
  rw [← hpe]
  exact extractParamEntry_ptype_sig _ _ _ _ ht

/-- Witness for `type_hint_priority`: signature `x: int = 5` with comment
type `str` merges to type `int`. -/
theorem type_hint_priority_witness :
    (⟨pyS "x", pyS "the input", some (pyS "int"), some (pyS "5")⟩ : OutParam) ∈
      extractParams [⟨pyS "x", pyS "int", pyS "5"⟩]
        [(pyS "x", pyS "the input", some (pyS "str"))] ∧
    (OutParam.mk (pyS "x") (pyS "the input") (some (pyS "int")) (some (pyS "5"))).ptype =
      some (ParamsConfig.mk (pyS "x") (pyS "int") (pyS "5")).type := by
  refine ⟨by decide, ?_⟩
  exact type_hint_priority [⟨pyS "x", pyS "int", pyS "5"⟩]
    [(pyS "x", pyS "the input", some (pyS "str"))]
    ⟨pyS "x", pyS "int", pyS "5"⟩ (pyS "the input") (pyS "str")
    (by decide) (by decide) (by decide) (by decide) (by decide)
    ⟨pyS "x", pyS "the input", some (pyS "int"), some (pyS "5")⟩ (by decide) rfl

/-! ### Style-detection lemmas for C4 -/

/-- A line counted by the Numpydoc keyword loop of `autodetect_style`:
it starts (after lstrip, lowercased) with one of the Numpydoc section
names. -/
def isNumpydocKeywordLine (l : PyStr) : Bool :=
  numpydocOptVals.any (fun v => isinStartOne v l)

/-- A pure dash-underline line, as tested by `autodetect_style`. -/
def isDashUnderlineLine (l : PyStr) : Bool :=
  !(pyStrip l).isEmpty && isinAlone [List.replicate (pyStrip l).length '-'] l

theorem countsStep_numpy_eq (acc : DetectCounts) (l : PyStr) :
    (autodetectCountsStep acc l).numpy =
      acc.numpy + numpydocOptVals.countP (fun v => isinStartOne v l) +
      (if !(pyStrip l).isEmpty &&
          isinAlone [List.replicate (pyStrip l).length '-'] l then 0
       else if isinSub numpydocKeywords l then 1 else 0) := by
  unfold autodetectCountsStep
  split
  · rename_i hcond
    simp [hcond]
  · rename_i hcond
    simp only [Bool.not_eq_true] at hcond
    split <;> simp [hcond]

theorem countsStep_sep_eq (acc : DetectCounts) (l : PyStr) :
    (autodetectCountsStep acc l).sep =
      acc.sep +
      (if !(pyStrip l).isEmpty &&
          isinAlone [List.replicate (pyStrip l).length '-'] l then 1
       else 0) := by
  unfold autodetectCountsStep
  split
  · rename_i hcond
    simp [hcond]
  · rename_i hcond
    simp only [Bool.not_eq_true] at hcond
    split <;> simp [hcond]

theorem countsFold_numpy_le :
    ∀ (ls : List PyStr) (acc : DetectCounts),
      acc.numpy ≤ (ls.foldl autodetectCountsStep acc).numpy := by
  intro ls
  induction ls with
  | nil => intro acc; simp
  | cons l t ih =>
    intro acc
    have h1 := countsStep_numpy_eq acc l
    have h2 := ih (autodetectCountsStep acc l)
    simp only [List.foldl_cons]
    omega

theorem countsFold_sep_le :
    ∀ (ls : List PyStr) (acc : DetectCounts),
      acc.sep ≤ (ls.foldl autodetectCountsStep acc).sep := by
  intro ls
  induction ls with
  | nil => intro acc; simp
  | cons l t ih =>
    intro acc
    have h1 := countsStep_sep_eq acc l
    have h2 := ih (autodetectCountsStep acc l)
    simp only [List.foldl_cons]
    omega

theorem countsStep_numpy_incr (acc : DetectCounts) (l : PyStr)
    (h : isNumpydocKeywordLine l = true ∨
      (isDashUnderlineLine l = false ∧ isinSub numpydocKeywords l = true)) :
    acc.numpy + 1 ≤ (autodetectCountsStep acc l).numpy := by
  rw [countsStep_numpy_eq]
  rcases h with h | ⟨hd, hk⟩
  · have hc : 0 < numpydocOptVals.countP (fun v => isinStartOne v l) := by
      rw [List.countP_pos_iff]
      simpa [isNumpydocKeywordLine, List.any_eq_true] using h
    omega
  · unfold isDashUnderlineLine at hd
    rw [hd]
    simp only [Bool.false_eq_true, if_false, hk, if_true]
    omega

theorem countsStep_sep_incr (acc : DetectCounts) (l : PyStr)
    (h : isDashUnderlineLine l = true) :
    acc.sep + 1 ≤ (autodetectCountsStep acc l).sep := by
  rw [countsStep_sep_eq]
  unfold isDashUnderlineLine at h
  rw [h]
  simp

theorem countsFold_numpy_pos (lines : List PyStr) (acc : DetectCounts)
    (h : ∃ l ∈ lines, isNumpydocKeywordLine l = true ∨
      (isDashUnderlineLine l = false ∧ isinSub numpydocKeywords l = true)) :
    0 < (lines.foldl autodetectCountsStep acc).numpy := by
  obtain ⟨l, hl, hpred⟩ := h
  obtain ⟨s, t, rfl⟩ := List.append_of_mem hl
  rw [List.foldl_append, List.foldl_cons]
  have h1 := countsStep_numpy_incr (s.foldl autodetectCountsStep acc) l hpred
  have h2 := countsFold_numpy_le t
    (autodetectCountsStep (s.foldl autodetectCountsStep acc) l)
  omega

theorem countsFold_sep_pos (lines : List PyStr) (acc : DetectCounts)
    (h : ∃ l ∈ lines, isDashUnderlineLine l = true) :
    0 < (lines.foldl autodetectCountsStep acc).sep := by
  obtain ⟨l, hl, hpred⟩ := h
  obtain ⟨s, t, rfl⟩ := List.append_of_mem hl
  rw [List.foldl_append, List.foldl_cons]
  have h1 := countsStep_sep_incr (s.foldl autodetectCountsStep acc) l hpred
  have h2 := countsFold_sep_le t
    (autodetectCountsStep (s.foldl autodetectCountsStep acc) l)
  omega

/-- C4: on a docstring with no tag-style markers (all per-style marker
counts are zero), if some line is a Numpydoc section keyword (or a
non-underline line containing a Numpydoc keyword phrase) and some line is
a pure dash-underline, `autodetect_style` detects `numpydoc` — whatever
other lines (e.g. Google's `Returns:`) are present. -/
theorem numpydoc_detection_precedence (data : PyStr)
    (htag : ∀ s ∈ tagstyles, styleKeyCount data s = 0)
    (hkw : ∃ l ∈ pySplitlines (pyStrip data),
      isNumpydocKeywordLine l = true ∨
        (isDashUnderlineLine l = false ∧ isinSub numpydocKeywords l = true))
    (hsep : ∃ l ∈ pySplitlines (pyStrip data), isDashUnderlineLine l = true) :
    autodetectStyle data = pyS "numpydoc" := by
  have hj := htag (pyS "javadoc") (by simp [tagstyles])
  have hr := htag (pyS "reST") (by simp [tagstyles])
  have hc := htag (pyS "cstyle") (by simp [tagstyles])
  have hn : (autodetectCounts data).numpy ≠ 0 := by
    have := countsFold_numpy_pos (pySplitlines (pyStrip data)) ⟨0, 0, 0, 0⟩ hkw
    unfold autodetectCounts
    omega
  have hs : (autodetectCounts data).sep ≠ 0 := by
    have := countsFold_sep_pos (pySplitlines (pyStrip data)) ⟨0, 0, 0, 0⟩ hsep
    unfold autodetectCounts
    omega
  unfold autodetectStyle
  rw [hj, hr, hc]
  simp [maxByFirst, hn, hs]

/-- Witness for `numpydoc_detection_precedence`: a dash-underline plus
the word `Parameters`, with a Google `Returns:` marker also present,
detects as Numpydoc. -/
theorem numpydoc_detection_precedence_witness :
    (∀ s ∈ tagstyles,
      styleKeyCount (pyS "Parameters\n----------\nReturns:\nx") s = 0) ∧
    autodetectStyle (pyS "Parameters\n----------\nReturns:\nx") =
      pyS "numpydoc" := by
  refine ⟨by decide, ?_⟩
  exact numpydoc_detection_precedence (pyS "Parameters\n----------\nReturns:\nx")
    (by decide) (by decide) (by decide)

/-! ### Substring-search lemmas for the index-scan proofs -/

theorem pyFindAux_shift (pat : PyStr) :
    ∀ (s : PyStr) (i : Nat),
      pyFindAux pat s i = (pyFindAux pat s 0).map (· + i) := by
  intro s
  induction s with
  | nil =>
    intro i
    unfold pyFindAux
    split <;> simp
  | cons c t ih =>
    intro i
    unfold pyFindAux
    by_cases hp : pat.isPrefixOf (c :: t)
    · simp [hp]
    · simp only [hp, if_false, Bool.false_eq_true]
      rw [ih (i + 1), ih 1]
      cases pyFindAux pat t 0 with
      | none => simp
      | some j => simp; omega

theorem pyFind_cons (c : Char) (t pat : PyStr) :
    pyFind (c :: t) pat =
      if pat.isPrefixOf (c :: t) then some 0
      else (pyFind t pat).map (· + 1) := by
  unfold pyFind
  conv_lhs => rw [pyFindAux]
  split
  · rfl
  · exact pyFindAux_shift pat t 1

theorem pyFind_of_startsWith {s pat : PyStr} (h : pat.isPrefixOf s = true) :
    pyFind s pat = some 0 := by
  unfold pyFind
  unfold pyFindAux
  split
  · rfl
  · rename_i hc
    exact absurd h hc

theorem pyFind_isSome_iff (pat : PyStr) :
    ∀ (s : PyStr),
      (pyFind s pat).isSome = true ↔ ∃ i, pat.isPrefixOf (s.drop i) = true := by
  intro s
  induction s with
  | nil =>
    unfold pyFind pyFindAux
    by_cases hp : pat.isPrefixOf ([] : PyStr) = true
    · simp [hp]
    · simp [hp]
  | cons c t ih =>
    rw [pyFind_cons]
    by_cases hp : pat.isPrefixOf (c :: t) = true
    · simp only [hp, if_true]
      simp only [Option.isSome_some, true_iff]
      exact ⟨0, by simpa using hp⟩
    · simp only [hp, if_false, Bool.false_eq_true]
      have hmap : (Option.map (· + 1) (pyFind t pat)).isSome = (pyFind t pat).isSome := by
        cases pyFind t pat <;> rfl
      rw [hmap, ih]
      constructor
      · rintro ⟨i, hi⟩
        exact ⟨i + 1, by simpa using hi⟩
      · rintro ⟨i, hi⟩
        cases i with
        | zero =>
          simp only [List.drop_zero] at hi
          exact absurd hi hp
        | succ j => exact ⟨j, by simpa using hi⟩

theorem pyContainsSub_cons_false {c : Char} {t pat : PyStr}
    (h : pyContainsSub (c :: t) pat = false) : pyContainsSub t pat = false := by
  unfold pyContainsSub at h ⊢
  rw [pyFind_cons] at h
  split at h
  · cases h
  · simpa using h

theorem not_prefix_of_not_contains {s pat : PyStr}
    (h : pyContainsSub s pat = false) : pat.isPrefixOf s = false := by
  unfold pyContainsSub at h
  cases hb : pat.isPrefixOf s with
  | false => rfl
  | true =>
    rw [pyFind_of_startsWith hb] at h
    cases h

theorem pyReplaceFuel_of_not_contains {old new : PyStr} :
    ∀ (fuel : Nat) (s : PyStr), pyContainsSub s old = false →
      pyReplaceFuel old new fuel s = s := by
  intro fuel
  induction fuel with
  | zero => intro s _; rfl
  | succ f ih =>
    intro s hs
    have hp := not_prefix_of_not_contains hs
    cases s with
    | nil =>
      unfold pyReplaceFuel
      simp [hp]
    | cons c t =>
      unfold pyReplaceFuel
      simp only [hp, Bool.false_eq_true, false_and, if_false]
      show c :: pyReplaceFuel old new f t = c :: t
      rw [ih t (pyContainsSub_cons_false hs)]

theorem pyReplace_of_not_contains {s old new : PyStr}
    (h : pyContainsSub s old = false) : pyReplace s old new = s :=
  pyReplaceFuel_of_not_contains s.length s h

theorem prefix_append_left {pat l t : PyStr} (h : pat.length ≤ l.length) :
    pat.isPrefixOf (l ++ t) = pat.isPrefixOf l := by
  by_cases hp : pat.isPrefixOf l
  · have hpre := List.isPrefixOf_iff_prefix.mp hp
    have : pat <+: l ++ t := hpre.trans (List.prefix_append l t)
    simp [hp, List.isPrefixOf_iff_prefix.mpr this]
  · by_cases hq : pat.isPrefixOf (l ++ t)
    · exfalso
      have hpre := List.isPrefixOf_iff_prefix.mp hq
      rw [List.prefix_iff_eq_take] at hpre
      rw [List.take_append_eq_append_take] at hpre
      have h0 : pat.length - l.length = 0 := by omega
      rw [h0] at hpre
      simp at hpre
      exact hp (List.isPrefixOf_iff_prefix.mpr (List.prefix_iff_eq_take.mpr hpre))
    · simp [hp, hq]

theorem not_contains_append {a b pat : PyStr}
    (ha : ∀ i, i < a.length → pat.isPrefixOf (a.drop i ++ b) = false)
    (hb : pyContainsSub b pat = false) :
    pyContainsSub (a ++ b) pat = false := by
  by_contra hc
  simp only [Bool.not_eq_false] at hc
  have hc2 : (pyFind (a ++ b) pat).isSome = true := by
    simpa [pyContainsSub] using hc
  obtain ⟨i, hi⟩ := (pyFind_isSome_iff pat (a ++ b)).mp hc2
  by_cases hlt : i < a.length
  · rw [List.drop_append_eq_append_drop] at hi
    have h0 : i - a.length = 0 := by omega
    rw [h0, List.drop_zero] at hi
    rw [ha i hlt] at hi
    cases hi
  · rw [List.drop_append_eq_append_drop] at hi
    have h0 : a.drop i = [] := by
      apply List.drop_eq_nil_of_le
      omega
    rw [h0, List.nil_append] at hi
    have : (pyFind (b.drop (i - a.length)) pat).isSome = true := by
      rw [pyFind_isSome_iff]
      exact ⟨0, by simpa using hi⟩
    have hbdrop : pyContainsSub (b.drop (i - a.length)) pat = true := by
      unfold pyContainsSub
      simpa using this
    have : ∃ j, pat.isPrefixOf (b.drop j) = true := ⟨i - a.length, hi⟩
    have hcb : (pyFind b pat).isSome = true := (pyFind_isSome_iff pat b).mpr this
    unfold pyContainsSub at hb
    rw [hcb] at hb
    cases hb

theorem pyFind_append_at {a b pat : PyStr}
    (ha : ∀ i, i < a.length → pat.isPrefixOf (a.drop i ++ b) = false)
    (hb : pat.isPrefixOf b = true) :
    pyFind (a ++ b) pat = some a.length := by
  induction a with
  | nil => simpa using pyFind_of_startsWith hb
  | cons c t ih =>
    rw [List.cons_append, pyFind_cons]
    have h0 := ha 0 (by simp)
    simp only [List.drop_zero, List.cons_append] at h0
    rw [h0]
    simp only [Bool.false_eq_true, if_false]
    rw [ih (fun i hi => by
      have := ha (i + 1) (by simpa using Nat.succ_lt_succ hi)
      simpa using this)]
    simp

/-! ### The cap-exceeding input for the iteration-cap analysis (C6)

`c6Data k` is a docstring consisting of `k + 1` copies of the line
`:raises E desc`, separated by newlines. -/

def c6Unit : PyStr := pyS ":raises E desc"

def c6UnitN : PyStr := c6Unit ++ ['\n']

def c6Data : Nat → PyStr
  | 0 => c6Unit
  | k + 1 => c6UnitN ++ c6Data k

theorem c6Data_length : ∀ k, (c6Data k).length = 14 + 15 * k := by
  intro k
  induction k with
  | zero => rfl
  | succ j ih =>
    show (c6UnitN ++ c6Data j).length = 14 + 15 * (j + 1)
    rw [List.length_append, ih]
    simp [c6UnitN, c6Unit, pyS]
    omega

theorem c6Data_unit_prefix : ∀ k, ∃ t, c6Data k = c6Unit ++ t := by
  intro k
  cases k with
  | zero => exact ⟨[], by simp [c6Data]⟩
  | succ j =>
    refine ⟨'\n' :: c6Data j, ?_⟩
    show c6UnitN ++ c6Data j = c6Unit ++ '\n' :: c6Data j
    simp [c6UnitN]

theorem c6Data_head_reverse : ∀ k, (c6Data k).reverse.head? = some 'c' := by
  intro k
  induction k with
  | zero => rfl
  | succ j ih =>
    show (c6UnitN ++ c6Data j).reverse.head? = some 'c'
    rw [List.reverse_append]
    rw [List.head?_append_of_ne_nil]
    · exact ih
    · intro hnil
      have := c6Data_length j
      rw [← List.length_reverse (c6Data j)] at this
      rw [hnil] at this
      simp at this
      omega

theorem pyRStrip_append_c6Data (a : PyStr) (k : Nat) :
    pyRStrip (a ++ c6Data k) = a ++ c6Data k := by
  unfold pyRStrip
  rw [List.reverse_append]
  have hh := c6Data_head_reverse k
  cases hrev : (c6Data k).reverse with
  | nil => rw [hrev] at hh; cases hh
  | cons c u =>
    rw [hrev] at hh
    simp at hh
    subst hh
    rw [List.cons_append, List.dropWhile_cons]
    simp only [pyIsSpace]
    have hck : c6Data k = u.reverse ++ ['c'] := by
      rw [← List.reverse_reverse (c6Data k), hrev]
      simp
    simp [hck]

theorem c6Data_rstrip (k : Nat) : pyRStrip (c6Data k) = c6Data k := by
  have := pyRStrip_append_c6Data [] k
  simpa using this

theorem c6Data_not_contains (pat : PyStr) (hlen : pat.length ≤ 14)
    (hu : pyContainsSub c6Unit pat = false)
    (hwin : ∀ i, i < 15 → pat.isPrefixOf (c6UnitN.drop i ++ c6Unit) = false) :
    ∀ k, pyContainsSub (c6Data k) pat = false := by
  intro k
  induction k with
  | zero => exact hu
  | succ j ih =>
    show pyContainsSub (c6UnitN ++ c6Data j) pat = false
    apply not_contains_append _ ih
    intro i hi
    obtain ⟨t, ht⟩ := c6Data_unit_prefix j
    rw [ht, ← List.append_assoc]
    rw [prefix_append_left]
    · apply hwin i
      simpa [c6UnitN, c6Unit, pyS] using hi
    · rw [List.length_append, List.length_drop]
      have h14 : c6Unit.length = 14 := rfl
      omega

theorem data10_not_contains (pat : PyStr) (hlen : pat.length ≤ 14)
    (hnc : ∀ k, pyContainsSub (c6Data k) pat = false)
    (hwin5 : ∀ i, i < 5 → pat.isPrefixOf ((pyS "desc\n").drop i ++ c6Unit) = false)
    (j : Nat) :
    pyContainsSub (pyS "desc\n" ++ c6Data j) pat = false := by
  apply not_contains_append _ (hnc j)
  intro i hi
  obtain ⟨t, ht⟩ := c6Data_unit_prefix j
  rw [ht, ← List.append_assoc]
  rw [prefix_append_left]
  · apply hwin5 i
    simpa [pyS] using hi
  · rw [List.length_append, List.length_drop]
    have h14 : c6Unit.length = 14 := rfl
    omega

theorem getKeyIndexLoop_found {key data : PyStr} {i : Nat} (idx0 fuel ini : Nat)
    (hfind : pyFind data key = some i)
    (hcond : (!pyEndsWith (pyRStripChars [' ', '\t'] (data.take i)) (pyS "\n") &&
        decide ((pyStrip (data.take i)).length > 0)) = false) :
    getKeyIndexLoop key idx0 true (fuel + 1) data ini =
      (((ini + i : Nat) : Int), data) := by
  unfold getKeyIndexLoop
  rw [hfind]
  simp [hcond]

theorem getKeyIndex_eq_neg_of_not_contains {styleIn data key kname : PyStr}
    (hk : optName key styleIn = some kname)
    (hrep : pyStartsWith kname (pyS ":returns") = false)
    (hnc : pyContainsSub data kname = false) :
    getKeyIndex styleIn data key true = Except.ok (-1) := by
  unfold getKeyIndex
  rw [hk]
  show (do
    let data := if pyStartsWith kname (pyS ":returns") then
        pyReplace data (pyS ":return:") (pyS ":returns:")
      else data
    let idx0 := data.length
    let (idx, dataF) :=
      if pyContainsSub data kname then
        getKeyIndexLoop kname idx0 true (data.length + 1) data 0
      else ((idx0 : Int), data)
    pure (if idx = (dataF.length : Int) then -1 else idx) :
      Except PyErr Int) = Except.ok (-1)
  rw [hrep]
  simp [hnc]
  rfl

theorem getKeyIndex_returns_neg {styleIn data key : PyStr}
    (hk : optName key styleIn = some (pyS ":returns"))
    (hnc1 : pyContainsSub data (pyS ":return:") = false)
    (hnc2 : pyContainsSub data (pyS ":returns") = false) :
    getKeyIndex styleIn data key true = Except.ok (-1) := by
  unfold getKeyIndex
  rw [hk]
  show (do
    let data := if pyStartsWith (pyS ":returns") (pyS ":returns") then
        pyReplace data (pyS ":return:") (pyS ":returns:")
      else data
    let idx0 := data.length
    let (idx, dataF) :=
      if pyContainsSub data (pyS ":returns") then
        getKeyIndexLoop (pyS ":returns") idx0 true (data.length + 1) data 0
      else ((idx0 : Int), data)
    pure (if idx = (dataF.length : Int) then -1 else idx) :
      Except PyErr Int) = Except.ok (-1)
  have hid : pyReplace data (pyS ":return:") (pyS ":returns:") = data :=
    pyReplace_of_not_contains hnc1
  simp [hid, hnc2]
  rfl

theorem getKeyIndex_found {styleIn data key kname : PyStr} {i : Nat}
    (hk : optName key styleIn = some kname)
    (hrep : pyStartsWith kname (pyS ":returns") = false)
    (hfind : pyFind data kname = some i)
    (hcond : (!pyEndsWith (pyRStripChars [' ', '\t'] (data.take i)) (pyS "\n") &&
        decide ((pyStrip (data.take i)).length > 0)) = false)
    (hne : ((i : Nat) : Int) ≠ (data.length : Int)) :
    getKeyIndex styleIn data key true = Except.ok (i : Int) := by
  unfold getKeyIndex
  rw [hk]
  show (do
    let data := if pyStartsWith kname (pyS ":returns") then
        pyReplace data (pyS ":return:") (pyS ":returns:")
      else data
    let idx0 := data.length
    let (idx, dataF) :=
      if pyContainsSub data kname then
        getKeyIndexLoop kname idx0 true (data.length + 1) data 0
      else ((idx0 : Int), data)
    pure (if idx = (dataF.length : Int) then -1 else idx) :
      Except PyErr Int) = Except.ok (i : Int)
  rw [hrep]
  have hcont : pyContainsSub data kname = true := by
    unfold pyContainsSub
    rw [hfind]
    rfl
  simp only [Bool.false_eq_true, if_false, hcont, if_true]
  rw [getKeyIndexLoop_found data.length data.length 0 hfind hcond]
  simp [hne]
  rfl

/-- The six tag markers other than the raise marker never occur in the
`c6Data` inputs nor in the scan window `desc\n` ++ tail. -/
theorem data10_no_param (j : Nat) :
    pyContainsSub (pyS "desc\n" ++ c6Data j) (pyS ":param") = false :=
  data10_not_contains _ (by decide)
    (c6Data_not_contains _ (by decide) (by decide) (by decide)) (by decide) j

theorem data10_no_type (j : Nat) :
    pyContainsSub (pyS "desc\n" ++ c6Data j) (pyS ":type") = false :=
  data10_not_contains _ (by decide)
    (c6Data_not_contains _ (by decide) (by decide) (by decide)) (by decide) j

theorem data10_no_returns (j : Nat) :
    pyContainsSub (pyS "desc\n" ++ c6Data j) (pyS ":returns") = false :=
  data10_not_contains _ (by decide)
    (c6Data_not_contains _ (by decide) (by decide) (by decide)) (by decide) j

theorem data10_no_return_colon (j : Nat) :
    pyContainsSub (pyS "desc\n" ++ c6Data j) (pyS ":return:") = false :=
  data10_not_contains _ (by decide)
    (c6Data_not_contains _ (by decide) (by decide) (by decide)) (by decide) j

theorem data10_no_rtype (j : Nat) :
    pyContainsSub (pyS "desc\n" ++ c6Data j) (pyS ":rtype") = false :=
  data10_not_contains _ (by decide)
    (c6Data_not_contains _ (by decide) (by decide) (by decide)) (by decide) j

/-- The raise marker is a prefix of every `c6Data` tail. -/
theorem c6Data_startsWith_raises (k : Nat) :
    (pyS ":raises").isPrefixOf (c6Data k) = true := by
  obtain ⟨t, ht⟩ := c6Data_unit_prefix k
  rw [ht]
  rw [prefix_append_left (by decide)]
  decide

theorem data10_find_raises (j : Nat) :
    pyFind (pyS "desc\n" ++ c6Data j) (pyS ":raises") = some 5 := by
  have h5 : (pyS "desc\n").length = 5 := rfl
  rw [← h5]
  apply pyFind_append_at
  · intro i hi
    obtain ⟨t, ht⟩ := c6Data_unit_prefix j
    rw [ht, ← List.append_assoc, prefix_append_left]
    · revert i
      decide
    · rw [List.length_append, List.length_drop]
      have h14 : c6Unit.length = 14 := rfl
      have h7 : (pyS ":raises").length = 7 := rfl
      rw [h7]
      rw [h5] at hi ⊢
      omega
  · exact c6Data_startsWith_raises j

theorem data10_take5 (j : Nat) :
    (pyS "desc\n" ++ c6Data j).take 5 = pyS "desc\n" := by
  have h5 : (pyS "desc\n").length = 5 := rfl
  rw [← h5, List.take_left]

theorem data10_length (j : Nat) :
    (pyS "desc\n" ++ c6Data j).length = 19 + 15 * j := by
  rw [List.length_append, c6Data_length]
  have h5 : (pyS "desc\n").length = 5 := rfl
  omega

theorem getKeyIndex_raise_data10 (j : Nat) :
    getKeyIndex (pyS "reST") (pyS "desc\n" ++ c6Data j) (pyS "raise") true =
      Except.ok 5 := by
  have h := @getKeyIndex_found (pyS "reST") (pyS "desc\n" ++ c6Data j)
    (pyS "raise") (pyS ":raises") 5 rfl rfl (data10_find_raises j) ?_ ?_
  · exact_mod_cast h
  · rw [data10_take5]
    decide
  · rw [data10_length]
    intro hc
    omega

theorem getElemIndex_data10 (j : Nat) :
    getElemIndex (pyS "reST") (pyS "desc\n" ++ c6Data j) true = Except.ok 5 := by
  have hparam : getKeyIndex (pyS "reST") (pyS "desc\n" ++ c6Data j) (pyS "param") true =
      Except.ok (-1) :=
    getKeyIndex_eq_neg_of_not_contains rfl rfl (data10_no_param j)
  have htype : getKeyIndex (pyS "reST") (pyS "desc\n" ++ c6Data j) (pyS "type") true =
      Except.ok (-1) :=
    getKeyIndex_eq_neg_of_not_contains rfl rfl (data10_no_type j)
  have hrets : getKeyIndex (pyS "reST") (pyS "desc\n" ++ c6Data j) (pyS "returns") true =
      Except.ok (-1) :=
    getKeyIndex_returns_neg rfl (data10_no_return_colon j) (data10_no_returns j)
  have hret : getKeyIndex (pyS "reST") (pyS "desc\n" ++ c6Data j) (pyS "return") true =
      Except.ok (-1) :=
    getKeyIndex_returns_neg rfl (data10_no_return_colon j) (data10_no_returns j)
  have hrtype : getKeyIndex (pyS "reST") (pyS "desc\n" ++ c6Data j) (pyS "rtype") true =
      Except.ok (-1) :=
    getKeyIndex_eq_neg_of_not_contains rfl rfl (data10_no_rtype j)
  have hraise := getKeyIndex_raise_data10 j
  have hlen := data10_length j
  unfold getElemIndex
  simp only [optKeys, List.foldlM]
  rw [hparam]
  simp only [Except.bind, bind]
  rw [htype]
  simp only [Except.bind, bind]
  rw [hrets]
  simp only [Except.bind, bind]
  rw [hret]
  simp only [Except.bind, bind]
  rw [hrtype]
  simp only [Except.bind, bind]
  rw [hraise]
  simp only [Except.bind, bind, pure, Except.pure]
  have hne1 : ¬((-1 : Int) < ((pyS "desc\n" ++ c6Data j).length : Int) ∧ (-1 : Int) ≠ -1) := by
    intro hcc
    exact hcc.2 rfl
  have h5lt : ((5 : Int) < ((pyS "desc\n" ++ c6Data j).length : Int) ∧ (5 : Int) ≠ -1) := by
    constructor
    · rw [hlen]
      push_cast
      omega
    · decide
  simp only [hne1, if_false, ite_false]
  rw [if_pos h5lt]
  have hne5 : ¬((5 : Int) = ((pyS "desc\n").length : Int) + ((c6Data j).length : Int)) := by
    have h1 : (pyS "desc\n").length = 5 := rfl
    have h2 := c6Data_length j
    rw [h1, h2]
    push_cast
    omega
  simp [hne5]

theorem pyDropInt_ofNat (s : PyStr) (n : Nat) : pyDropInt s (n : Int) = s.drop n := by
  unfold pyDropInt pySlice pySliceNorm
  simp only [Int.ofNat_toNat]
  have hnn : ¬((n : Int) < 0) := by omega
  have hln : ¬((s.length : Int) < 0) := by omega
  simp only [hnn, if_false, hln]
  simp only [Int.toNat_ofNat, Int.toNat_natCast]
  have hmm : Nat.min s.length s.length = s.length := Nat.min_self _
  rw [hmm, List.take_length]
  rcases Nat.le_total n s.length with h | h
  · have hx : n.min s.length = n := by simp [Nat.min, h]
    rw [hx]
  · have hx : n.min s.length = s.length := by simp [Nat.min, h]
    rw [hx, List.drop_eq_nil_of_le (Nat.le_refl _), List.drop_eq_nil_of_le h]

theorem getKeyIndex_raise_c6Data (k : Nat) :
    getKeyIndex (pyS "reST") (c6Data k) (pyS "raise") true = Except.ok 0 := by
  have hfind : pyFind (c6Data k) (pyS ":raises") = some 0 :=
    pyFind_of_startsWith (c6Data_startsWith_raises k)
  have h := @getKeyIndex_found (pyS "reST") (c6Data k)
    (pyS "raise") (pyS ":raises") 0 rfl rfl hfind ?_ ?_
  · exact_mod_cast h
  · simp
    decide
  · rw [c6Data_length]
    intro hc
    omega

theorem c6Data_drop7 (j : Nat) :
    (c6Data (j + 1)).drop 7 = pyS " E desc\n" ++ c6Data j := by
  show (c6UnitN ++ c6Data j).drop 7 = pyS " E desc\n" ++ c6Data j
  rw [List.drop_append_eq_append_drop]
  have h1 : c6UnitN.drop 7 = pyS " E desc\n" := rfl
  have h2 : 7 - c6UnitN.length = 0 := rfl
  rw [h1, h2, List.drop_zero]

theorem c6Data_drop9 (j : Nat) :
    (c6Data (j + 1)).drop 9 = pyS " desc\n" ++ c6Data j := by
  show (c6UnitN ++ c6Data j).drop 9 = pyS " desc\n" ++ c6Data j
  rw [List.drop_append_eq_append_drop]
  have h1 : c6UnitN.drop 9 = pyS " desc\n" := rfl
  have h2 : 9 - c6UnitN.length = 0 := rfl
  rw [h1, h2, List.drop_zero]

theorem c6Data_drop10 (j : Nat) :
    (c6Data (j + 1)).drop 10 = pyS "desc\n" ++ c6Data j := by
  show (c6UnitN ++ c6Data j).drop 10 = pyS "desc\n" ++ c6Data j
  rw [List.drop_append_eq_append_drop]
  have h1 : c6UnitN.drop 10 = pyS "desc\n" := rfl
  have h2 : 10 - c6UnitN.length = 0 := rfl
  rw [h1, h2, List.drop_zero]

theorem c6_strip_drop7 (j : Nat) :
    pyStrip (pyS " E desc\n" ++ c6Data j) = pyS "E desc\n" ++ c6Data j := by
  unfold pyStrip
  have hl : pyLStrip (pyS " E desc\n" ++ c6Data j) = pyS "E desc\n" ++ c6Data j := by
    show List.dropWhile pyIsSpace (' ' :: ('E' :: (pyS " desc\n" ++ c6Data j))) = _
    rw [List.dropWhile_cons]
    have h1 : pyIsSpace ' ' = true := rfl
    rw [h1]
    simp only [if_true]
    rw [List.dropWhile_cons]
    have h2 : pyIsSpace 'E' = false := rfl
    rw [h2]
    simp only [Bool.false_eq_true, if_false]
    rfl
  rw [hl]
  exact pyRStrip_append_c6Data _ j

theorem takeWhile_cons_of_pos {p : Char → Bool} {a : Char} (l : List Char)
    (h : p a = true) : (a :: l).takeWhile p = a :: l.takeWhile p := by
  rw [List.takeWhile_cons, h]
  simp

theorem takeWhile_cons_of_neg {p : Char → Bool} {a : Char} (l : List Char)
    (h : p a = false) : (a :: l).takeWhile p = [] := by
  rw [List.takeWhile_cons, h]
  simp

theorem dropWhile_cons_of_pos {p : Char → Bool} {a : Char} (l : List Char)
    (h : p a = true) : (a :: l).dropWhile p = l.dropWhile p := by
  rw [List.dropWhile_cons, h]
  simp

theorem dropWhile_cons_of_neg {p : Char → Bool} {a : Char} (l : List Char)
    (h : p a = false) : (a :: l).dropWhile p = a :: l := by
  rw [List.dropWhile_cons, h]
  simp

theorem c6_matchWordDot (j : Nat) :
    matchWordDot (pyS "E desc\n" ++ c6Data j) = some (pyS "E") := by
  have hval : List.takeWhile (fun c => pyIsWord c || decide (c = '.'))
      (pyS "E desc\n" ++ c6Data j) = pyS "E" := by
    show List.takeWhile (fun c => pyIsWord c || decide (c = '.'))
      ('E' :: (' ' :: (pyS "desc\n" ++ c6Data j))) = pyS "E"
    rw [takeWhile_cons_of_pos _ (by decide), takeWhile_cons_of_neg _ (by decide)]
    rfl
  unfold matchWordDot
  rw [hval]
  rfl

theorem c6_find_E (j : Nat) :
    pyFind (pyS " E desc\n" ++ c6Data j) (pyS "E") = some 1 := by
  show pyFind (' ' :: (pyS "E desc\n" ++ c6Data j)) (pyS "E") = some 1
  rw [pyFind_cons]
  have h1 : (pyS "E").isPrefixOf (' ' :: (pyS "E desc\n" ++ c6Data j)) = false := rfl
  rw [h1]
  simp only [Bool.false_eq_true, if_false]
  have h2 : (pyS "E").isPrefixOf (pyS "E desc\n" ++ c6Data j) = true := rfl
  rw [pyFind_of_startsWith h2]
  rfl

theorem c6_matchNonWordWord (j : Nat) :
    matchNonWordWord (pyS " desc\n" ++ c6Data j) = some (pyS "desc") := by
  have hdrop : List.dropWhile (fun c => !pyIsWord c) (pyS " desc\n" ++ c6Data j) =
      'd' :: 'e' :: 's' :: 'c' :: '\n' :: c6Data j := by
    show List.dropWhile (fun c => !pyIsWord c)
      (' ' :: ('d' :: 'e' :: 's' :: 'c' :: '\n' :: c6Data j)) = _
    rw [dropWhile_cons_of_pos _ (by decide), dropWhile_cons_of_neg _ (by decide)]
  have htake : List.takeWhile pyIsWord
      ('d' :: 'e' :: 's' :: 'c' :: '\n' :: c6Data j) = pyS "desc" := by
    rw [takeWhile_cons_of_pos _ (by decide), takeWhile_cons_of_pos _ (by decide),
      takeWhile_cons_of_pos _ (by decide), takeWhile_cons_of_pos _ (by decide),
      takeWhile_cons_of_neg _ (by decide)]
    rfl
  unfold matchNonWordWord
  rw [hdrop, htake]
  rfl

theorem c6_find_desc (j : Nat) :
    pyFind (pyS " desc\n" ++ c6Data j) (pyS "desc") = some 1 := by
  show pyFind (' ' :: (pyS "desc\n" ++ c6Data j)) (pyS "desc") = some 1
  rw [pyFind_cons]
  have h1 : (pyS "desc").isPrefixOf (' ' :: (pyS "desc\n" ++ c6Data j)) = false := rfl
  rw [h1]
  simp only [Bool.false_eq_true, if_false]
  have h2 : (pyS "desc").isPrefixOf (pyS "desc\n" ++ c6Data j) = true := rfl
  rw [pyFind_of_startsWith h2]
  rfl

theorem exceptBind_ok {α β : Type} (x : α) (f : α → Except PyErr β) :
    (Except.ok x >>= f) = f x := rfl

theorem getRaiseIndexes_spec (styleIn data kname param : PyStr)
    (i0 f0 : Nat)
    (hopt : optName (pyS "raise") styleIn = some kname)
    (hsty : (tagstyles.contains styleIn || decide (styleIn = pyS "unknown")) = true)
    (hkey : getKeyIndex styleIn data (pyS "raise") true = Except.ok ((i0 : Nat) : Int))
    (hmatch : matchWordDot (pyStrip (pyDropInt data (((i0 : Nat) : Int) + (kname.length : Int)))) = some param)
    (hfind : pyFind (pyDropInt data (((i0 : Nat) : Int) + (kname.length : Int))) param = some f0) :
    getRaiseIndexes styleIn data =
      Except.ok ((((i0 + kname.length + f0 : Nat) : Int)),
        ((i0 + kname.length + f0 + param.length : Nat) : Int)) := by
  unfold getRaiseIndexes
  rw [hopt]
  show (Except.ok kname >>= fun stlParam => _) = _
  rw [exceptBind_ok]
  rw [hsty, if_pos rfl, hkey, exceptBind_ok]
  rw [if_pos (by positivity : ((i0 : Nat) : Int) ≥ 0)]
  simp only [hmatch, hfind]
  unfold toIntIdx
  push_cast
  rfl

theorem exceptPure_bind {α β : Type} (x : α) (f : α → Except PyErr β) :
    ((pure x : Except PyErr α) >>= f) = f x := rfl

theorem getRaiseDescriptionIndexes_spec (styleIn data first : PyStr)
    (p f e : Nat) (hne : p ≠ 0)
    (hmatch : matchNonWordWord (pyDropInt data ((p : Nat) : Int)) = some first)
    (hfind : pyFind (pyDropInt data ((p : Nat) : Int)) first = some f)
    (hsty : (tagstyles.contains styleIn || decide (styleIn = pyS "unknown")) = true)
    (helem : getElemIndex styleIn (pyDropInt data ((f : Int) + (p : Int))) true =
      Except.ok ((e : Nat) : Int))
    (hparams : (decide (styleIn = pyS "params") || decide (styleIn = pyS "unknown")) = false) :
    getRaiseDescriptionIndexes styleIn data ((p : Nat) : Int) =
      Except.ok (((f : Int) + (p : Int)), ((e : Int) + ((f : Int) + (p : Int)))) := by
  unfold getRaiseDescriptionIndexes
  rw [if_neg (by exact_mod_cast hne : ¬(((p : Nat) : Int) = 0)), exceptPure_bind]
  beta_reduce
  rw [if_neg (by omega : ¬(((p : Nat) : Int) < 0))]
  simp only [hmatch]
  simp only [hfind, toIntIdx]
  rw [if_pos (by positivity : ((f : Nat) : Int) ≥ 0)]
  rw [hsty, if_pos rfl, helem, exceptBind_ok]
  rw [if_pos (by positivity : ((e : Nat) : Int) ≥ 0), exceptPure_bind]
  rw [hparams]
  simp only [Bool.false_and]
  rw [if_neg (by simp : ¬(false = true)), exceptPure_bind]
  rfl

theorem getRaiseIndexes_c6 (j : Nat) :
    getRaiseIndexes (pyS "reST") (c6Data (j + 1)) = Except.ok (8, 9) := by
  have h7 : (((0 : Nat) : Int) + ((pyS ":raises").length : Int)) = ((7 : Nat) : Int) := by
    norm_num [show (pyS ":raises").length = 7 from rfl]
  have hdrop : pyDropInt (c6Data (j + 1)) (((0 : Nat) : Int) + ((pyS ":raises").length : Int)) =
      pyS " E desc\n" ++ c6Data j := by
    rw [h7, pyDropInt_ofNat, c6Data_drop7]
  have h := getRaiseIndexes_spec (pyS "reST") (c6Data (j + 1)) (pyS ":raises") (pyS "E") 0 1
    rfl (by decide)
    (by exact_mod_cast getKeyIndex_raise_c6Data (j + 1))
    (by rw [hdrop, c6_strip_drop7]; exact c6_matchWordDot j)
    (by rw [hdrop]; exact c6_find_E j)
  rw [h]
  rfl

theorem getRaiseDescriptionIndexes_c6 (j : Nat) :
    getRaiseDescriptionIndexes (pyS "reST") (c6Data (j + 1)) 9 = Except.ok (10, 15) := by
  have hdrop9 : pyDropInt (c6Data (j + 1)) ((9 : Nat) : Int) = pyS " desc\n" ++ c6Data j := by
    rw [pyDropInt_ofNat, c6Data_drop9]
  have hdrop10 : pyDropInt (c6Data (j + 1)) (((1 : Nat) : Int) + ((9 : Nat) : Int)) =
      pyS "desc\n" ++ c6Data j := by
    have h10 : (((1 : Nat) : Int) + ((9 : Nat) : Int)) = ((10 : Nat) : Int) := by norm_num
    rw [h10, pyDropInt_ofNat, c6Data_drop10]
  have h := getRaiseDescriptionIndexes_spec (pyS "reST") (c6Data (j + 1)) (pyS "desc") 9 1 5
    (by norm_num)
    (by rw [hdrop9]; exact c6_matchNonWordWord j)
    (by rw [hdrop9]; exact c6_find_desc j)
    (by decide)
    (by rw [hdrop10]; exact_mod_cast getElemIndex_data10 j)
    (by decide)
  have h9 : ((9 : Nat) : Int) = (9 : Int) := by norm_num
  rw [h9] at h
  rw [h]
  rfl

theorem pySlice_ofNat (s : PyStr) (a b : Nat) (ha : a ≤ s.length) (hb : b ≤ s.length) :
    pySlice s ((a : Nat) : Int) ((b : Nat) : Int) = (s.take b).drop a := by
  unfold pySlice pySliceNorm
  have hna : ¬(((a : Nat) : Int) < 0) := by omega
  have hnb : ¬(((b : Nat) : Int) < 0) := by omega
  simp only [hna, hnb, if_false]
  simp only [Int.toNat_natCast]
  have hxa : a.min s.length = a := by simp [Nat.min, ha]
  have hxb : b.min s.length = b := by simp [Nat.min, hb]
  rw [hxa, hxb]

theorem c6_slice_8_9 (k : Nat) : pySlice (c6Data (k + 1)) 8 9 = pyS "E" := by
  have h8 : ((8 : Nat) : Int) = (8 : Int) := by norm_num
  have h9 : ((9 : Nat) : Int) = (9 : Int) := by norm_num
  have hlen := c6Data_length (k + 1)
  rw [← h8, ← h9, pySlice_ofNat _ _ _ (by omega) (by omega)]
  show ((c6UnitN ++ c6Data k).take 9).drop 8 = pyS "E"
  rw [List.take_append_eq_append_take]
  have h1 : 9 - c6UnitN.length = 0 := rfl
  rw [h1, List.take_zero, List.append_nil]
  rfl

theorem c6_slice_strip_10_15 (k : Nat) :
    pyStrip (pySlice (c6Data (k + 1)) 10 15) = pyS "desc" := by
  have h10 : ((10 : Nat) : Int) = (10 : Int) := by norm_num
  have h15 : ((15 : Nat) : Int) = (15 : Int) := by norm_num
  have hlen := c6Data_length (k + 1)
  rw [← h10, ← h15, pySlice_ofNat _ _ _ (by omega) (by omega)]
  have ht : (c6Data (k + 1)).take 15 = c6UnitN := by
    show (c6UnitN ++ c6Data k).take 15 = c6UnitN
    rw [show (15 : Nat) = c6UnitN.length from rfl, List.take_left]
  rw [ht]
  rfl

theorem c6_drop_15 (k : Nat) : pyDropInt (c6Data (k + 1)) 15 = c6Data k := by
  have h15 : ((15 : Nat) : Int) = (15 : Int) := by norm_num
  rw [← h15, pyDropInt_ofNat]
  show (c6UnitN ++ c6Data k).drop 15 = c6Data k
  rw [show (15 : Nat) = c6UnitN.length from rfl, List.drop_left]

theorem c6_loop_step (fuel i k : Nat) (acc : List (PyStr × PyStr))
    (hflag : i + 1 ≤ scanLoopMaxi) :
    tagstyleRaisesLoop (pyS "reST") (fuel + 1) i (c6Data (k + 1)) acc =
      tagstyleRaisesLoop (pyS "reST") fuel (i + 1) (c6Data k)
        (acc ++ [(pyS "E", pyS "desc")]) := by
  show (do
      let i2 := i + 1
      let loopFlag := !(i2 > scanLoopMaxi)
      let (s, e) ← getRaiseIndexes (pyS "reST") (c6Data (k + 1))
      if s ≥ 0 then do
        let param := pySlice (c6Data (k + 1)) s e
        let (ds, de) ← getRaiseDescriptionIndexes (pyS "reST") (c6Data (k + 1)) e
        let desc := if ds > 0 then pyStrip (pySlice (c6Data (k + 1)) ds de) else []
        let acc2 := acc ++ [(param, desc)]
        let data2 := pyDropInt (c6Data (k + 1)) de
        if loopFlag then tagstyleRaisesLoop (pyS "reST") fuel i2 data2 acc2
        else Except.ok (acc2, i2)
      else Except.ok (acc, i2)) = _
  rw [getRaiseIndexes_c6 k, exceptBind_ok]
  show (if (8 : Int) ≥ 0 then _ else _) = _
  rw [if_pos (by norm_num : (8 : Int) ≥ 0)]
  rw [getRaiseDescriptionIndexes_c6 k, exceptBind_ok]
  show (if (!decide (i + 1 > scanLoopMaxi)) = true then _ else _) = _
  have hf : (!decide (i + 1 > scanLoopMaxi)) = true := by
    simp only [Bool.not_eq_true']
    simp only [decide_eq_false_iff_not]
    omega
  rw [hf, if_pos rfl]
  rw [if_pos (by norm_num : (10 : Int) > 0)]
  rw [c6_slice_8_9, c6_slice_strip_10_15, c6_drop_15]

theorem c6_loop_last (acc : List (PyStr × PyStr)) :
    tagstyleRaisesLoop (pyS "reST") 2 scanLoopMaxi (c6Data 0) acc =
      Except.ok (acc ++ [(pyS "E", pyS "des")], scanLoopMaxi + 1) := rfl

theorem c6_loop_run : ∀ (m i k : Nat) (acc : List (PyStr × PyStr)),
    i + m = scanLoopMaxi → m ≤ k →
    tagstyleRaisesLoop (pyS "reST") (m + 2) i (c6Data k) acc =
      tagstyleRaisesLoop (pyS "reST") 2 scanLoopMaxi (c6Data (k - m))
        (acc ++ List.replicate m (pyS "E", pyS "desc"))
  | 0, i, k, acc, h1, _ => by
    simp only [List.replicate_zero, List.append_nil, Nat.sub_zero]
    rw [show i = scanLoopMaxi from by omega]
  | m + 1, i, k, acc, h1, h2 => by
    obtain ⟨j, rfl⟩ : ∃ j, k = j + 1 := ⟨k - 1, by omega⟩
    show tagstyleRaisesLoop (pyS "reST") ((m + 2) + 1) i (c6Data (j + 1)) acc = _
    rw [c6_loop_step (m + 2) i j acc (by simp [scanLoopMaxi] at h1 ⊢; omega)]
    rw [c6_loop_run m (i + 1) j (acc ++ [(pyS "E", pyS "desc")]) (by omega) (by omega)]
    rw [show j + 1 - (m + 1) = j - m from by omega, List.append_assoc]
    rw [show [(pyS "E", pyS "desc")] ++ List.replicate m (pyS "E", pyS "desc") =
      List.replicate (m + 1) (pyS "E", pyS "desc") from by simp [List.replicate_succ]]

theorem c6_splitAux (t acc : PyStr) :
    pySplitlinesAux (c6UnitN ++ t) acc = (acc.reverse ++ c6Unit) :: pySplitlinesAux t [] := by
  show pySplitlinesAux (':' :: 'r' :: 'a' :: 'i' :: 's' :: 'e' :: 's' :: ' ' :: 'E' :: ' ' ::
    'd' :: 'e' :: 's' :: 'c' :: '\n' :: t) acc = _
  simp [pySplitlinesAux]
  rfl

theorem c6_splitlines : ∀ k, pySplitlines (c6Data k) = List.replicate (k + 1) c6Unit := by
  intro k
  induction k with
  | zero => rfl
  | succ j ih =>
    show pySplitlinesAux (c6UnitN ++ c6Data j) [] = _
    rw [c6_splitAux]
    show c6Unit :: pySplitlines (c6Data j) = _
    rw [ih, List.replicate_succ, List.replicate_succ, List.replicate_succ]

theorem c6_join : ∀ k, pyJoin (pyS "\n") (List.replicate (k + 1) c6Unit) = c6Data k := by
  intro k
  induction k with
  | zero => rfl
  | succ j ih =>
    show pyJoin (pyS "\n") (c6Unit :: c6Unit :: List.replicate j c6Unit) = c6Data (j + 1)
    show c6Unit ++ pyS "\n" ++ pyJoin (pyS "\n") (c6Unit :: List.replicate j c6Unit) = _
    rw [show (c6Unit :: List.replicate j c6Unit) = List.replicate (j + 1) c6Unit from
      (List.replicate_succ _ _).symm]
    rw [ih]
    show (c6Unit ++ ['\n']) ++ c6Data j = c6UnitN ++ c6Data j
    rfl

theorem c6_preprocess (k : Nat) :
    pyJoin (pyS "\n")
      ((pySplitlines (c6Data k)).map fun d => pyReplace1 (pyRStrip d) (pyS "    ") []) =
      c6Data k := by
  rw [c6_splitlines, List.map_replicate]
  rw [show (pyReplace1 (pyRStrip c6Unit) (pyS "    ") []) = c6Unit from rfl]
  exact c6_join k

/-- C6 (counterexample): a reST raises-scan of 10001 `:raises E desc` lines
runs the legacy index-scan loop past its 10000-iteration cap, yet
`_extract_tagstyle_docs_raises` returns normally with all collected
entries and only the diagnostic flag set (the source merely
`print`s a WARNING): exceeding the cap is not surfaced as a fatal
internal error. -/
theorem iteration_cap_exceeded_not_fatal :
    extractTagstyleRaises (pyS "reST") (pyS "    ") (c6Data scanLoopMaxi) =
      Except.ok
        (List.replicate scanLoopMaxi (pyS "E", pyS "desc") ++ [(pyS "E", pyS "des")],
          true) := by
  unfold extractTagstyleRaises
  rw [c6_preprocess]
  show (tagstyleRaisesLoop (pyS "reST") (scanLoopMaxi + 2) 0 (c6Data scanLoopMaxi) [] >>= _) = _
  rw [c6_loop_run scanLoopMaxi 0 scanLoopMaxi [] (by omega) (Nat.le_refl _)]
  rw [Nat.sub_self, List.nil_append, c6_loop_last, exceptBind_ok]
  rfl

theorem foldlM_exceptOk (keys : List PyStr) (f : Int → PyStr → Except PyErr Int)
    (h : ∀ key ∈ keys, ∀ acc, ∃ v, f acc key = Except.ok v) :
    ∀ init, ∃ v, keys.foldlM f init = Except.ok v := by
  induction keys with
  | nil => exact fun init => ⟨init, rfl⟩
  | cons x t ih =>
    intro init
    obtain ⟨v, hv⟩ := h x (List.mem_cons_self x t) init
    obtain ⟨w, hw⟩ := ih (fun key hk acc => h key (List.mem_cons_of_mem x hk) acc) v
    refine ⟨w, ?_⟩
    rw [List.foldlM_cons, hv, exceptBind_ok, hw]

theorem optName_isSome_tag (key styleIn : PyStr) (hk : optKeys.contains key = true)
    (hsty : styleIn = pyS "javadoc" ∨ styleIn = pyS "reST") :
    (optName key styleIn).isSome := by
  unfold optName
  rw [hk]
  rcases hsty with h | h <;> subst h
  · simp
  · simp only [Bool.not_true, Bool.false_eq_true, if_false]
    rw [if_neg (by decide : ¬(pyS "reST" = pyS "javadoc"))]
    simp only [if_true]
    split
    · rfl
    · split <;> rfl

theorem getKeyIndex_isOk (styleIn data key : PyStr) (starting : Bool)
    (hopt : (optName key styleIn).isSome) :
    ∃ v, getKeyIndex styleIn data key starting = Except.ok v := by
  obtain ⟨kname, hk⟩ := Option.isSome_iff_exists.mp hopt
  unfold getKeyIndex
  rw [hk]
  exact ⟨_, rfl⟩

theorem getElemIndex_isOk (styleIn data : PyStr) (starting : Bool)
    (hsty : styleIn = pyS "javadoc" ∨ styleIn = pyS "reST") :
    ∃ v, getElemIndex styleIn data starting = Except.ok v := by
  unfold getElemIndex
  have hstep : ∀ key ∈ optKeys, ∀ acc : Int, ∃ v,
      (do
        let i ← getKeyIndex styleIn data key starting
        pure (if i < acc ∧ i ≠ -1 then i else acc) : Except PyErr Int) = Except.ok v := by
    intro key hkey acc
    obtain ⟨w, hw⟩ := getKeyIndex_isOk styleIn data key starting
      (optName_isSome_tag key styleIn (by simpa using hkey) hsty)
    rw [hw, exceptBind_ok]
    exact ⟨_, rfl⟩
  obtain ⟨v, hv⟩ := foldlM_exceptOk optKeys _ hstep ((data.length : Nat) : Int)
  rw [hv, exceptBind_ok]
  exact ⟨_, rfl⟩

theorem exceptBind_isOk {α β : Type} (x : Except PyErr α) (f : α → Except PyErr β)
    (hx : ∃ v, x = Except.ok v) (hf : ∀ v, ∃ w, f v = Except.ok w) :
    ∃ w, (x >>= f) = Except.ok w := by
  obtain ⟨v, rfl⟩ := hx
  obtain ⟨w, hw⟩ := hf v
  exact ⟨w, by rw [exceptBind_ok, hw]⟩

theorem getRaiseIndexes_isOk (styleIn data : PyStr)
    (hsty : styleIn = pyS "javadoc" ∨ styleIn = pyS "reST") :
    ∃ v, getRaiseIndexes styleIn data = Except.ok v := by
  have hopt := optName_isSome_tag (pyS "raise") styleIn (by decide) hsty
  obtain ⟨kname, hk⟩ := Option.isSome_iff_exists.mp hopt
  have hc : (tagstyles.contains styleIn || decide (styleIn = pyS "unknown")) = true := by
    rcases hsty with h | h <;> subst h <;> decide
  unfold getRaiseIndexes
  rw [hk]
  apply exceptBind_isOk
  · exact ⟨kname, rfl⟩
  · intro stlParam
    beta_reduce
    rw [hc]
    simp only [eq_self_iff_true, if_true]
    apply exceptBind_isOk
    · exact getKeyIndex_isOk styleIn data (pyS "raise") true hopt
    · intro idxP
      split
      · cases hmw : matchWordDot (pyStrip (pyDropInt data (idxP + (stlParam.length : Int))))
        · exact ⟨_, rfl⟩
        · exact ⟨_, rfl⟩
      · exact ⟨_, rfl⟩

theorem getRaiseDescriptionIndexes_isOk (styleIn data : PyStr) (prev0 : Int)
    (hsty : styleIn = pyS "javadoc" ∨ styleIn = pyS "reST") :
    ∃ v, getRaiseDescriptionIndexes styleIn data prev0 = Except.ok v := by
  have hc : (tagstyles.contains styleIn || decide (styleIn = pyS "unknown")) = true := by
    rcases hsty with h | h <;> subst h <;> decide
  have hpf : (decide (styleIn = pyS "params") || decide (styleIn = pyS "unknown")) = false := by
    rcases hsty with h | h <;> subst h <;> decide
  unfold getRaiseDescriptionIndexes
  simp only [hc, hpf, Bool.false_and, Bool.false_eq_true, if_false, eq_self_iff_true,
    if_true]
  split
  · apply exceptBind_isOk
    · exact getRaiseIndexes_isOk _ _ hsty
    · intro v
      obtain ⟨sv, ev⟩ := v
      rw [exceptPure_bind]
      split
      · exact ⟨_, rfl⟩
      · split
        · exact ⟨_, rfl⟩
        · split
          · apply exceptBind_isOk
            · exact getElemIndex_isOk _ _ _ hsty
            · intro e
              exact ⟨_, rfl⟩
          · exact ⟨_, rfl⟩
  · rw [exceptPure_bind]
    split
    · exact ⟨_, rfl⟩
    · split
      · exact ⟨_, rfl⟩
      · split
        · apply exceptBind_isOk
          · exact getElemIndex_isOk _ _ _ hsty
          · intro e
            exact ⟨_, rfl⟩
        · exact ⟨_, rfl⟩

theorem tagstyleRaisesLoop_isOk (styleIn : PyStr)
    (hsty : styleIn = pyS "javadoc" ∨ styleIn = pyS "reST") :
    ∀ (fuel i : Nat) (data : PyStr) (acc : List (PyStr × PyStr)),
    ∃ r, tagstyleRaisesLoop styleIn fuel i data acc = Except.ok r := by
  intro fuel
  induction fuel with
  | zero => exact fun i data acc => ⟨(acc, i), rfl⟩
  | succ f ih =>
    intro i data acc
    show ∃ r, (do
        let i2 := i + 1
        let loopFlag := !(i2 > scanLoopMaxi)
        let (s, e) ← getRaiseIndexes styleIn data
        if s ≥ 0 then do
          let param := pySlice data s e
          let (ds, de) ← getRaiseDescriptionIndexes styleIn data e
          let desc := if ds > 0 then pyStrip (pySlice data ds de) else []
          let acc2 := acc ++ [(param, desc)]
          let data2 := pyDropInt data de
          if loopFlag then tagstyleRaisesLoop styleIn f i2 data2 acc2
          else Except.ok (acc2, i2)
        else Except.ok (acc, i2)) = Except.ok r
    apply exceptBind_isOk
    · exact getRaiseIndexes_isOk _ _ hsty
    · intro v
      obtain ⟨sv, ev⟩ := v
      split
      split
      · apply exceptBind_isOk
        · exact getRaiseDescriptionIndexes_isOk _ _ _ hsty
        · intro w
          obtain ⟨dsv, dev⟩ := w
          split
          split
          · split
            · exact ih _ _ _
            · exact ⟨_, rfl⟩
          · split
            · exact ih _ _ _
            · exact ⟨_, rfl⟩
      · exact ⟨_, rfl⟩

/-- C6 (amended): for the tag-style input dialects javadoc and reST, the
legacy raises-scan extraction always returns normally — an entries list
plus a Boolean recording whether the 10000-iteration cap was exceeded —
for every input docstring: no scan, capped or not, is surfaced as an
error. -/
theorem iteration_cap_scan_never_fatal (styleIn outSpaces raw : PyStr)
    (hsty : styleIn = pyS "javadoc" ∨ styleIn = pyS "reST") :
    ∃ entries warned,
      extractTagstyleRaises styleIn outSpaces raw = Except.ok (entries, warned) := by
  unfold extractTagstyleRaises
  obtain ⟨⟨acc, i⟩, h⟩ := tagstyleRaisesLoop_isOk styleIn hsty (scanLoopMaxi + 2) 0
    (pyJoin (pyS "\n")
      ((pySplitlines raw).map fun d => pyReplace1 (pyRStrip d) outSpaces [])) []
  refine ⟨acc, decide (i > scanLoopMaxi), ?_⟩
  show (tagstyleRaisesLoop styleIn (scanLoopMaxi + 2) 0
      (pyJoin (pyS "\n")
        ((pySplitlines raw).map fun d => pyReplace1 (pyRStrip d) outSpaces [])) [] >>= _) = _
  rw [h, exceptBind_ok]
  rfl

theorem iteration_cap_scan_never_fatal_witness :
    (pyS "reST" = pyS "javadoc" ∨ pyS "reST" = pyS "reST") ∧
      ∃ entries warned,
        extractTagstyleRaises (pyS "reST") (pyS " ") (pyS ":raises E d") =
          Except.ok (entries, warned) :=
  ⟨Or.inr rfl,
    iteration_cap_scan_never_fatal (pyS "reST") (pyS " ") (pyS ":raises E d") (Or.inr rfl)⟩
